import Mathlib

/-!
Verification of the Wildfire Evacuation game engine
(`game.py`, `sim_game_options.py`, `multi_strategy_eval.py`).

The Python sources are shallowly embedded: each dataclass becomes a Lean
structure, each rule method becomes a pure Lean function, and every source
of randomness or interactive input is modelled by an explicit environment
of decision/roll streams threaded through the state (the spec's "Decision
Interface").  Ghost fields (named `ghost_...`) instrument the model for
observation only; they are written exactly where the corresponding source
event happens and are read by no game rule.
-/

namespace Wildfire

/-! ### Numeric constants (game.py lines 134-147) -/

def PATH_LENGTH : Int := 15

def SAFE_ZONE_INDEX : Int := PATH_LENGTH

/-- Action ("red") squares, `RED_SPACES = {4, 8, 10, 12, 13}`. -/
def RED_SPACES : List Int := [4, 8, 10, 12, 13]

/-- Shortcut squares, `SHORTCUT_SPACES = {5, 9}`. -/
def SHORTCUT_SPACES : List Int := [5, 9]

def NT_BONUS : Int := 3

def COMMUNITY_LEADER_NT_BONUS : Int := 4

def RESOURCE_POINTS : Int := 2

def SAFE_ZONE_POINTS : Int := 5

/-! ### Card data (game.py lines 22-132) -/

structure ResourceCard where
  name : String
  points : Int
  origin : String
deriving Repr, DecidableEq

structure CharacterCard where
  name : String
  plus_resource : String
  multiplier_resource : String
deriving Repr, DecidableEq

structure ActionCard where
  id : Nat
  title : String
  effect : String
  blocker : String
deriving Repr, DecidableEq

/-- `ACTION_CARDS` (game.py lines 85-96); display strings abbreviated,
only `title` and `blocker` are read by the rules. -/
def ACTION_CARDS : List ActionCard := [
  ⟨1, "Flat Tire", "Skip next turn", "Spare Tire"⟩,
  ⟨2, "Road Block", "Move only 1 space next turn", "Important Documents"⟩,
  ⟨3, "Heavy Smoke", "Skip next turn", "N95 Respirator"⟩,
  ⟨4, "Blackout", "Lose next turn die roll", "Flashlight"⟩,
  ⟨5, "Bad Directions", "Backtrack 4 spaces", "Hand Crank Radio"⟩,
  ⟨6, "Dehydration", "Lose 5 points", "Water Bottle"⟩,
  ⟨7, "Medical Emergency", "Skip 2 turns", "First Aid Kit"⟩,
  ⟨8, "Food Spoilage", "Lose 5 points", "Canned Food"⟩]

/-- `CHARACTER_CARDS` (game.py lines 71-83): name, plus resource, multiplier resource. -/
def CHARACTER_CARDS : List (String × String × String) := [
  ("Elderly", "N95 Respirator", "First Aid Kit"),
  ("Student", "Water Bottle", "Batteries"),
  ("Parent", "Extra Clothes", "Extra Cash"),
  ("Pet Owner", "Emergency Blanket", "Canned Food"),
  ("Community Leader", "Hand Crank Radio", "Neighborly Token")]

structure Combo where
  name : String
  required : List String
  points : Int
deriving Repr, DecidableEq

/-- `COMBO_BONUSES` (game.py lines 100-132); the display-only description
strings are omitted. -/
def COMBO_BONUSES : List Combo := [
  ⟨"Portable Go-Kit Bonus", ["Water Bottle", "First Aid Kit", "Canned Food"], 3⟩,
  ⟨"Prepper Kit Bonus",
    ["Water Bottle", "First Aid Kit", "Canned Food", "Important Documents",
     "1 Month of Medication"], 6⟩]

/-- `list(LOCATIONS.keys())` (game.py lines 22-43); the deck contents are
supplied as initial state, only the key order is needed by the rules. -/
def LOCATION_KEYS : List String :=
  ["Home", "Grocery Store", "Pharmacy", "Gas Station", "Electronics Store"]

/-! ### Player (game.py lines 166-224) -/

structure Player where
  name : String
  character : CharacterCard
  inventory : List ResourceCard := []
  tokens : Int := 0
  position : Int := 0
  skipped_turns : Int := 0
  one_space_only : Bool := false
  reached_safe_zone : Bool := false
  bonus_points : Int := 0
  last_location : String := "(none)"
  /-- Ghost: set exactly when the first-arrival `bonus_points += 5` branch fires. -/
  ghost_first_bonus : Bool := false
  /-- Ghost: incremented once per preparation-phase turn taken. -/
  ghost_prep_turns : Nat := 0
deriving Repr, DecidableEq

/-- `Player.has_card` (game.py line 183). -/
def Player.has_card (p : Player) (n : String) : Bool :=
  p.inventory.any (fun c => c.name == n)

/-- Stable sort of the combo table by descending points, as
`sorted(COMBO_BONUSES, key=points, reverse=True)` (game.py line 221). -/
def insertDesc (c : Combo) : List Combo → List Combo
  | [] => [c]
  | d :: ds => if d.points < c.points then c :: d :: ds else d :: insertDesc c ds

def sortByPointsDesc : List Combo → List Combo
  | [] => []
  | c :: cs => insertDesc c (sortByPointsDesc cs)

/-- Scan of the descending-sorted combo list: the first combo whose full
`required` set is contained in the inventory names wins (game.py 221-224). -/
def bestComboScan (names : List String) : List Combo → Int
  | [] => 0
  | c :: cs =>
    if c.required.all (fun req => names.contains req) then c.points
    else bestComboScan names cs

/-- `Player.combo_bonus_points` (game.py lines 219-224). -/
def Player.combo_bonus_points (p : Player) : Int :=
  bestComboScan (p.inventory.map (fun c => c.name)) (sortByPointsDesc COMBO_BONUSES)

/-- `Player.total_points` (game.py lines 195-209). -/
def Player.total_points (p : Player) : Int :=
  let pts := (p.inventory.map (fun c => c.points)).sum
  let pts := pts + RESOURCE_POINTS *
    ((p.inventory.filter (fun c => c.name == p.character.plus_resource)).length : Int)
  let pts := pts +
    (if p.character.multiplier_resource ≠ "Neighborly Token" then
      ((p.inventory.filter
        (fun c => c.name == p.character.multiplier_resource)).map (fun c => c.points)).sum
     else 0)
  let token_value :=
    if p.character.name == "Community Leader" then COMMUNITY_LEADER_NT_BONUS else NT_BONUS
  let pts := pts + p.tokens * token_value
  let pts := pts + p.bonus_points
  pts + p.combo_bonus_points

/-! ### Spec-side scoring (for the refinement claim C2).

These definitions follow the words of the specification, section 4.4, and
are compared against the source-derived `Player.total_points` above. -/

/-- Modelled from the spec: "highest-point Combo Bonus whose full required
set is a subset of inventory card names; zero or one combo counts". -/
def spec_best_combo_points (names : List String) : Int :=
  ((COMBO_BONUSES.filter
    (fun c => c.required.all (fun req => names.contains req))).map
      (fun c => c.points)).foldr max 0

/-- Modelled from the spec, section 4.4: the `total_points` formula as the
specification states it. -/
def spec_total_points (p : Player) : Int :=
  (p.inventory.map (fun c => c.points)).sum
  + 2 * ((p.inventory.filter (fun c => c.name == p.character.plus_resource)).length : Int)
  + (if p.character.multiplier_resource ≠ "Neighborly Token" then
      ((p.inventory.filter
        (fun c => c.name == p.character.multiplier_resource)).map (fun c => c.points)).sum
     else 0)
  + p.tokens * (if p.character.name == "Community Leader" then 4 else 3)
  + p.bonus_points
  + spec_best_combo_points (p.inventory.map (fun c => c.name))

lemma sorted_combos_eval :
    sortByPointsDesc COMBO_BONUSES = [
      ⟨"Prepper Kit Bonus",
        ["Water Bottle", "First Aid Kit", "Canned Food", "Important Documents",
         "1 Month of Medication"], 6⟩,
      ⟨"Portable Go-Kit Bonus", ["Water Bottle", "First Aid Kit", "Canned Food"], 3⟩] := by
  rfl

lemma best_combo_eq (names : List String) :
    bestComboScan names (sortByPointsDesc COMBO_BONUSES) = spec_best_combo_points names := by
  rw [sorted_combos_eval]
  cases h1 :
      ((["Water Bottle", "First Aid Kit", "Canned Food", "Important Documents",
         "1 Month of Medication"] : List String).all (fun req => names.contains req)) <;>
    cases h2 :
      ((["Water Bottle", "First Aid Kit", "Canned Food"] : List String).all
        (fun req => names.contains req)) <;>
    simp only [bestComboScan, spec_best_combo_points, COMBO_BONUSES, List.filter_cons,
      List.filter_nil, h1, h2, if_true, if_false, List.map_cons, List.map_nil,
      List.foldr_cons, List.foldr_nil, Bool.false_eq_true, ite_true, ite_false] <;>
    norm_num

/-- The Elderly scenario player from the specification, section 8. -/
def elderlyScenarioPlayer : Player :=
  { name := "E"
    character := ⟨"Elderly", "N95 Respirator", "First Aid Kit"⟩
    inventory := [⟨"N95 Respirator", 2, "Pharmacy"⟩, ⟨"First Aid Kit", 1, "Pharmacy"⟩] }

/-- C2: for every player, `total_points` equals the specified formula (inventory
point sum, +2 per plus-resource card, + points of multiplier-resource cards
unless the multiplier is the Neighborly Token, + tokens times 4 for the
Community Leader and times 3 otherwise, + bonus points, + the single
highest-point achieved combo), and the Elderly scenario player scores exactly 6. -/
theorem claim2_total_points :
    (∀ p : Player, p.total_points = spec_total_points p) ∧
    elderlyScenarioPlayer.total_points = 6 := by
  constructor
  · intro p
    unfold Player.total_points spec_total_points Player.combo_bonus_points
    rw [best_combo_eq]
    exact rfl
  · rfl

/-! ### The decision/randomness environment.

All `rng` calls and all interactive or policy decisions are modelled by
indexed streams, one per kind of query, consumed in program order.  A
`randint lo hi` result is `lo + s % (hi - lo + 1)`, so it always lies in
`[lo, hi]` whatever the stream holds, exactly the contract of Python's
`random.randint`. -/

/-- A preparation-phase choice typed at the CLI of game.py (line 483):
take a token, visit the location with a given 1-based key index, or an
invalid entry. -/
inductive PrepChoice
  | token
  | visit (idx : Nat)
  | invalid
deriving Repr, DecidableEq

/-- A preparation-phase policy decision of the headless simulators:
`"TakeToken"` or `"Visit_<loc>"` with the location drawn by
`rng.choice(locations)`, modelled as an index into the key list. -/
inductive SimPrepChoice
  | token
  | visit (idx : Nat)
deriving Repr, DecidableEq

structure Env where
  rollFn : Nat → Nat
  boolFn : Nat → Bool
  choiceFn : Nat → Nat
  prepFn : Nat → PrepChoice
  simPrepFn : Nat → SimPrepChoice
  nameFn : Nat → String
  permFn : Nat → List Nat
  rIdx : Nat := 0
  bIdx : Nat := 0
  cIdx : Nat := 0
  pIdx : Nat := 0
  sIdx : Nat := 0
  nIdx : Nat := 0
  qIdx : Nat := 0

/-- `rng.randint(lo, hi)`. -/
def Env.randint (e : Env) (lo hi : Nat) : Nat × Env :=
  (lo + e.rollFn e.rIdx % (hi + 1 - lo), {e with rIdx := e.rIdx + 1})

/-- One yes/no decision (an `input()` answer or a policy probability draw). -/
def Env.nextBool (e : Env) : Bool × Env :=
  (e.boolFn e.bIdx, {e with bIdx := e.bIdx + 1})

/-- `rng.choice(l)`: an environment-drawn index into `l`. -/
def Env.choiceList {α : Type} (e : Env) (l : List α) (d : α) : α × Env :=
  (l.getD (e.choiceFn e.cIdx % l.length) d, {e with cIdx := e.cIdx + 1})

/-- One interactive preparation-phase menu entry. -/
def Env.nextPrep (e : Env) : PrepChoice × Env :=
  (e.prepFn e.pIdx, {e with pIdx := e.pIdx + 1})

/-- One simulator preparation-phase policy decision. -/
def Env.nextSimPrep (e : Env) : SimPrepChoice × Env :=
  (e.simPrepFn e.sIdx, {e with sIdx := e.sIdx + 1})

/-- One free-text `input()` line (partner or card name in a trade). -/
def Env.nextName (e : Env) : String × Env :=
  (e.nameFn e.nIdx, {e with nIdx := e.nIdx + 1})

/-- One `rng.shuffle` outcome, as an index rearrangement to apply. -/
def Env.nextPerm (e : Env) : List Nat × Env :=
  (e.permFn e.qIdx, {e with qIdx := e.qIdx + 1})

/-- Apply an index rearrangement (the model of an in-place shuffle). -/
def permuteBy {α : Type} (idxs : List Nat) (l : List α) : List α :=
  idxs.filterMap (fun i => l[i]?)

/-- Pop the last element of a list, Python's `list.pop()`. -/
def popLast {α : Type} : List α → Option (α × List α)
  | [] => none
  | [a] => some (a, [])
  | a :: b :: rest =>
    match popLast (b :: rest) with
    | some (x, l) => some (x, a :: l)
    | none => none

/-- Remove the first element equal to `c`, Python's `list.remove(c)`. -/
def removeFirst (l : List ResourceCard) (c : ResourceCard) : List ResourceCard :=
  match l with
  | [] => []
  | x :: xs => if x == c then xs else x :: removeFirst xs c

/-- Location-deck mapping `Dict[str, List[ResourceCard]]`. -/
def LocDecks := List (String × List ResourceCard)

def lookupDeck (d : LocDecks) (loc : String) : List ResourceCard :=
  ((d.find? (fun e => e.1 == loc)).map (fun e => e.2)).getD []

def setDeck (d : LocDecks) (loc : String) (deck : List ResourceCard) : LocDecks :=
  d.map (fun e => if e.1 == loc then (e.1, deck) else e)

/-! ### Interactive engine (`game.py`, class WildfireGame), disaster phase -/

namespace WG

/-- The parts of `self` that a disaster turn touches besides the player:
action deck, first-arrival slot and the rng/input streams. -/
structure Ctx where
  action_deck : List ActionCard
  first_to_safe_zone : Option Player
  env : Env

/-- Placeholder card for the impossible empty-deck pop (the source deck is
refilled before popping, so this is never drawn from a reachable state). -/
def NO_CARD : ActionCard := ⟨0, "", "", ""⟩

/-- `WildfireGame.draw_action_card` (game.py lines 621-625): refill with
the full `ACTION_CARDS` set and shuffle when exhausted, then pop the last
card. -/
def draw_action_card (c : Ctx) : ActionCard × Ctx :=
  let de :=
    if c.action_deck.isEmpty then
      let pe := c.env.nextPerm
      (permuteBy pe.1 ACTION_CARDS, pe.2)
    else (c.action_deck, c.env)
  match popLast de.1 with
  | some (card, rest) => (card, { c with action_deck := rest, env := de.2 })
  | none => (NO_CARD, { c with action_deck := [], env := de.2 })

/-- The penalty dispatch of `WildfireGame.resolve_action_card`
(game.py lines 636-680), keyed on the card title. -/
def apply_action_penalty (title : String) (p : Player) : Player :=
  if title == "Flat Tire" then { p with skipped_turns := p.skipped_turns + 1 }
  else if title == "Road Block" then { p with one_space_only := true }
  else if title == "Heavy Smoke" then { p with skipped_turns := p.skipped_turns + 1 }
  else if title == "Blackout" then { p with skipped_turns := p.skipped_turns + 1 }
  else if title == "Car Trouble" then
    if p.inventory.isEmpty then p else { p with inventory := p.inventory.dropLast }
  else if title == "Bad Directions" then { p with position := max 0 (p.position - 4) }
  else if title == "Dehydration" then { p with bonus_points := p.bonus_points - 5 }
  else if title == "Medical Emergency" then { p with skipped_turns := p.skipped_turns + 2 }
  else if title == "Food Spoilage" then { p with bonus_points := p.bonus_points - 5 }
  else p

/-- `WildfireGame.resolve_action_card` (game.py lines 627-680): draw, offer
the blocker when held (one yes/no decision), otherwise apply the penalty. -/
def resolve_action_card (p : Player) (c : Ctx) : Player × Ctx :=
  let dc := draw_action_card c
  let card := dc.1
  let c := dc.2
  if card.blocker != "" && p.has_card card.blocker then
    let ue := c.env.nextBool
    let c := { c with env := ue.2 }
    if ue.1 then (p, c) else (apply_action_penalty card.title p, c)
  else (apply_action_penalty card.title p, c)

/-- Movement roll of `take_disaster_turn` (game.py lines 566-572): 1 space
under a Road Block (clearing the flag), else `2 * randint(1, 3)`. -/
def move_roll (p : Player) (c : Ctx) : Int × Player × Ctx :=
  if p.one_space_only then (1, { p with one_space_only := false }, c)
  else
    let re := c.env.randint 1 3
    (2 * (re.1 : Int), p, { c with env := re.2 })

/-- Optional token spend (game.py lines 574-579): one yes/no decision when
a token is held, +5 movement at the cost of one token. -/
def token_step (move : Int) (p : Player) (c : Ctx) : Int × Player × Ctx :=
  if p.tokens != 0 && !p.reached_safe_zone then
    let se := c.env.nextBool
    let c := { c with env := se.2 }
    if se.1 then (move + 5, { p with tokens := p.tokens - 1 }, c) else (move, p, c)
  else (move, p, c)

/-- `new_pos = min(position + move, SAFE_ZONE_INDEX)` (game.py line 581). -/
def advance (move : Int) (p : Player) : Player :=
  { p with position := min (p.position + move) SAFE_ZONE_INDEX }

/-- Shortcut gamble (game.py lines 585-595). -/
def shortcut_step (p : Player) (c : Ctx) : Player × Ctx :=
  if SHORTCUT_SPACES.contains p.position && !p.reached_safe_zone then
    let ge := c.env.nextBool
    let c := { c with env := ge.2 }
    if ge.1 then
      let re := c.env.randint 1 6
      let c := { c with env := re.2 }
      if re.1 ≥ 5 then ({ p with position := min (p.position + 3) SAFE_ZONE_INDEX }, c)
      else ({ p with skipped_turns := 1 }, c)
    else (p, c)
  else (p, c)

/-- Red-space check (game.py lines 597-598). -/
def red_step (p : Player) (c : Ctx) : Player × Ctx :=
  if RED_SPACES.contains p.position && !p.reached_safe_zone then resolve_action_card p c
  else (p, c)

/-- Safe-zone arrival (game.py lines 600-607).  The source stores the
player object in `first_to_safe_zone` before adding the +5; since that is
a reference to the object it finishes the turn with the bonus applied, so
the model stores the final snapshot. -/
def arrival_step (p : Player) (c : Ctx) : Player × Ctx :=
  if p.position ≥ SAFE_ZONE_INDEX then
    let p := { p with reached_safe_zone := true }
    if c.first_to_safe_zone.isNone then
      let p := { p with bonus_points := p.bonus_points + 5, ghost_first_bonus := true }
      (p, { c with first_to_safe_zone := some p })
    else (p, c)
  else (p, c)

/-- Tail of `take_disaster_turn` after the movement roll (game.py lines
574-607): token spend, advance, shortcut, red space, arrival. -/
def turn_tail (move : Int) (p : Player) (c : Ctx) : Player × Ctx :=
  let t := token_step move p c
  let p1 := advance t.1 t.2.1
  let s := shortcut_step p1 t.2.2
  let r := red_step s.1 s.2
  arrival_step r.1 r.2

/-- `WildfireGame.take_disaster_turn` (game.py lines 536-617). -/
def take_disaster_turn (p : Player) (c : Ctx) : Player × Ctx :=
  if p.reached_safe_zone then (p, c)
  else if p.skipped_turns > 0 then ({ p with skipped_turns := p.skipped_turns - 1 }, c)
  else
    let m := move_roll p c
    turn_tail m.1 m.2.1 m.2.2

/-- Swap attempt of `trading_phase` (game.py lines 287-297): ownership
check, then remove each named card from its holder and append it to the
other player; on failure nothing changes. -/
def trade_pair (p partner : Player) (give take : String) : Player × Player :=
  if !p.has_card give || !partner.has_card take then (p, partner)
  else
    match p.inventory.find? (fun c => c.name == give),
          partner.inventory.find? (fun c => c.name == take) with
    | some card_give, some card_take =>
      ({ p with inventory := removeFirst p.inventory card_give ++ [card_take] },
       { partner with inventory := removeFirst partner.inventory card_take ++ [card_give] })
    | _, _ => (p, partner)

/-- Body of the `for p in active` loop of `trading_phase` (game.py lines
267-302), iterating over the indices of the active snapshot. -/
def trading_go (activeIdx : List Nat) :
    List Player → Env → List Nat → List Player × Env
  | players, env, [] => (players, env)
  | players, env, i :: rest =>
    match players[i]? with
    | none => trading_go activeIdx players env rest
    | some p =>
      let be := env.nextBool
      let env := be.2
      if !be.1 then trading_go activeIdx players env rest
      else
        let partners := activeIdx.filter (fun j => j ≠ i)
        if partners.isEmpty then trading_go activeIdx players env rest
        else
          let pe := env.nextName
          let env := pe.2
          match partners.find? (fun j =>
              match players[j]? with
              | some q => q.name == pe.1
              | none => false) with
          | none => trading_go activeIdx players env rest
          | some j =>
            match players[j]? with
            | none => trading_go activeIdx players env rest
            | some q =>
              let ge := env.nextName
              let te := ge.2.nextName
              let env := te.2
              let pq := trade_pair p q ge.1 te.1
              let players := (players.set i pq.1).set j pq.2
              trading_go activeIdx players env rest

/-- `WildfireGame.trading_phase` (game.py lines 264-302): the active list
(non-arrived players with non-empty inventories) is snapshotted once, then
each active player in order may propose one swap. -/
def trading_phase (players : List Player) (env : Env) : List Player × Env :=
  let activeIdx := (List.range players.length).filter (fun i =>
    match players[i]? with
    | some p => !p.reached_safe_zone && !p.inventory.isEmpty
    | none => false)
  trading_go activeIdx players env activeIdx

/-- The `for p in self.players` loop of `disaster_phase` (game.py lines
519-522 and 529-532): each player takes a turn, breaking as soon as the
first-arrival slot is claimed (remaining players keep their state). -/
def disaster_round : List Player → Ctx → List Player × Ctx
  | [], c => ([], c)
  | p :: rest, c =>
    let t := take_disaster_turn p c
    if t.2.first_to_safe_zone.isSome then (t.1 :: rest, t.2)
    else
      let r := disaster_round rest t.2
      (t.1 :: r.1, r.2)

structure DState where
  players : List Player
  ctx : Ctx

/-- One iteration of the first `while` loop (game.py lines 518-526): a
round of turns, then trading only when no one has arrived yet. -/
def round_and_trading (st : DState) : DState :=
  let r := disaster_round st.players st.ctx
  if r.2.first_to_safe_zone.isNone then
    let t := trading_phase r.1 r.2.env
    ⟨t.1, { r.2 with env := t.2 }⟩
  else ⟨r.1, r.2⟩

/-- The first `while not self.first_to_safe_zone` loop (game.py lines
518-526), with explicit fuel; the returned flag records whether the loop
exited through its condition (the source loop has no other exit). -/
def disaster_loop : Nat → DState → DState × Bool
  | 0, st => (st, st.ctx.first_to_safe_zone.isSome)
  | fuel + 1, st =>
    if st.ctx.first_to_safe_zone.isSome then (st, true)
    else disaster_loop fuel (round_and_trading st)

/-- One iteration of the second (dead) `while` loop (game.py lines
528-534), whose body runs trading unconditionally. -/
def round_then_trading (st : DState) : DState :=
  let r := disaster_round st.players st.ctx
  let t := trading_phase r.1 r.2.env
  ⟨t.1, { r.2 with env := t.2 }⟩

def disaster_loop2 : Nat → DState → DState × Bool
  | 0, st => (st, st.ctx.first_to_safe_zone.isSome)
  | fuel + 1, st =>
    if st.ctx.first_to_safe_zone.isSome then (st, true)
    else disaster_loop2 fuel (round_then_trading st)

/-- Phase entry (game.py lines 514-516): every position is set to 0. -/
def disaster_entry_player (p : Player) : Player :=
  { p with position := 0 }

/-- `WildfireGame.disaster_phase` (game.py lines 511-534): reset positions,
run the first loop, then the second (in the source the second loop is dead
because the first one only exits once `first_to_safe_zone` is set). -/
def disaster_phase (fuel : Nat) (st : DState) : DState × Bool :=
  let st : DState := ⟨st.players.map disaster_entry_player, st.ctx⟩
  let r1 := disaster_loop fuel st
  let r2 := disaster_loop2 fuel r1.1
  (r2.1, r1.2 && r2.2)

/-! ### Interactive engine, preparation phase (game.py lines 387-507) -/

inductive GamePhase
  | prep
  | disaster
deriving Repr, DecidableEq

/-- `WildfireGame.take_prep_turn` (game.py lines 404-501), stripped of its
display code: one menu choice per turn; `0` earns a token, a valid
location index pops the top deck card (no effect on an empty deck), and an
invalid entry loses the turn. -/
def take_prep_turn (p : Player) (decks : LocDecks) (env : Env) :
    Player × LocDecks × Env :=
  let ce := env.nextPrep
  let env := ce.2
  let p := { p with ghost_prep_turns := p.ghost_prep_turns + 1 }
  match ce.1 with
  | .token => ({ p with tokens := p.tokens + 1, last_location := "Yard" }, decks, env)
  | .visit idx =>
    if idx < LOCATION_KEYS.length then
      let loc := LOCATION_KEYS.getD idx ""
      let p := { p with last_location := loc }
      match popLast (lookupDeck decks loc) with
      | some (card, rest) =>
        ({ p with inventory := p.inventory ++ [card] }, setDeck decks loc rest, env)
      | none => (p, decks, env)
    else (p, decks, env)
  | .invalid => (p, decks, env)

/-- `WildfireGame.roll_disaster_die` (game.py lines 503-507). -/
def roll_disaster_die (env : Env) : Nat × Env :=
  env.randint 1 6

/-- The `for p in self.players` loop of `preparation_phase` (game.py lines
389-395): every player takes a turn and, from round 4 on, the disaster die
is rolled after each turn, breaking out on a 6.  `log` records (as a
ghost) the round number of every disaster-die roll. -/
def prep_round_go (round : Nat) :
    List Player → LocDecks → List Nat → Env →
      List Player × LocDecks × List Nat × Env × GamePhase
  | [], decks, log, env => ([], decks, log, env, .prep)
  | p :: rest, decks, log, env =>
    let t := take_prep_turn p decks env
    if round > 3 then
      let de := roll_disaster_die t.2.2
      let log := log ++ [round]
      if de.1 == 6 then (t.1 :: rest, t.2.1, log, de.2, .disaster)
      else
        let r := prep_round_go round rest t.2.1 log de.2
        (t.1 :: r.1, r.2.1, r.2.2.1, r.2.2.2.1, r.2.2.2.2)
    else
      let r := prep_round_go round rest t.2.1 log env
      (t.1 :: r.1, r.2.1, r.2.2.1, r.2.2.2.1, r.2.2.2.2)

structure PState where
  players : List Player
  location_decks : LocDecks
  phase : GamePhase
  prep_round : Nat
  die_log : List Nat
  env : Env

/-- `WildfireGame.preparation_phase` (game.py lines 387-402), with fuel
for the `while self.phase == "prep"` loop (7 suffices from round 1, since
the round counter increases every iteration up to the round-7 exit). -/
def preparation_loop : Nat → PState → PState
  | 0, st => st
  | fuel + 1, st =>
    if st.phase = GamePhase.prep then
      let r := prep_round_go st.prep_round st.players st.location_decks st.die_log st.env
      let st : PState := { st with players := r.1, location_decks := r.2.1,
                                   die_log := r.2.2.1, env := r.2.2.2.1, phase := r.2.2.2.2 }
      if st.phase = GamePhase.disaster then st
      else if st.prep_round ≥ 7 then { st with phase := GamePhase.disaster }
      else preparation_loop fuel { st with prep_round := st.prep_round + 1 }
    else st

def preparation_phase (fuel : Nat) (st : PState) : PState :=
  preparation_loop fuel st

end WG

/-! ### Options simulator (`sim_game_options.py`, class AutoGame) -/

namespace SimOpt

/-- First-arrival flag plus streams: the context a simulator turn touches
besides the player. -/
structure Ctx where
  first_to_safe : Bool
  env : Env

/-- Penalty dispatch of `AutoGame._resolve_action_card`
(sim_game_options.py lines 292-305). -/
def apply_action_penalty (title : String) (p : Player) : Player :=
  if title == "Flat Tire" then { p with skipped_turns := p.skipped_turns + 1 }
  else if title == "Road Block" then { p with one_space_only := true }
  else if title == "Heavy Smoke" || title == "Blackout" then
    { p with skipped_turns := p.skipped_turns + 1 }
  else if title == "Bad Directions" then { p with position := max 0 (p.position - 4) }
  else if title == "Dehydration" || title == "Food Spoilage" then
    { p with bonus_points := p.bonus_points - 5 }
  else if title == "Medical Emergency" then { p with skipped_turns := p.skipped_turns + 2 }
  else p

/-- `AutoGame._draw_action_card` and `_resolve_action_card`
(sim_game_options.py lines 280-305): uniform draw with replacement, an
optional blocker decision, then the penalty. -/
def resolve_action_card (p : Player) (c : Ctx) : Player × Ctx :=
  let de := c.env.choiceList ACTION_CARDS WG.NO_CARD
  let card := de.1
  let c := { c with env := de.2 }
  if card.blocker != "" && p.has_card card.blocker then
    let ue := c.env.nextBool
    let c := { c with env := ue.2 }
    if ue.1 then (p, c) else (apply_action_penalty card.title p, c)
  else (apply_action_penalty card.title p, c)

/-- Movement roll (sim_game_options.py line 243): 1 under a Road Block,
else a full `randint(1, 6)`; line 244 clears the flag in either case. -/
def move_roll (p : Player) (c : Ctx) : Int × Player × Ctx :=
  let mv : Int × Ctx :=
    if p.one_space_only then (1, c)
    else
      let re := c.env.randint 1 6
      ((re.1 : Int), { c with env := re.2 })
  (mv.1, { p with one_space_only := false }, mv.2)

/-- `policy.spend_token` (sim_game_options.py lines 246-251 with Policy
line 80): a token is spent only when one is held and the policy draw says
so; the draw is consumed only when `tokens > 0` (short-circuit). -/
def token_step (move : Int) (p : Player) (c : Ctx) : Int × Player × Ctx :=
  if p.tokens > 0 then
    let be := c.env.nextBool
    let c := { c with env := be.2 }
    if be.1 then (move + 5, { p with tokens := p.tokens - 1 }, c) else (move, p, c)
  else (move, p, c)

/-- `p.position = min(p.position + move, SAFE_ZONE_INDEX)` (line 253). -/
def advance (move : Int) (p : Player) : Player :=
  { p with position := min (p.position + move) SAFE_ZONE_INDEX }

/-- Shortcut gamble (sim_game_options.py lines 255-266). -/
def shortcut_step (p : Player) (c : Ctx) : Player × Ctx :=
  if SHORTCUT_SPACES.contains p.position then
    let ge := c.env.nextBool
    let c := { c with env := ge.2 }
    if ge.1 then
      let re := c.env.randint 1 6
      let c := { c with env := re.2 }
      if (re.1 : Nat) ≥ 5 then ({ p with position := min (p.position + 3) SAFE_ZONE_INDEX }, c)
      else ({ p with skipped_turns := 1 }, c)
    else (p, c)
  else (p, c)

/-- Red-space check (sim_game_options.py lines 268-269). -/
def red_step (p : Player) (c : Ctx) : Player × Ctx :=
  if RED_SPACES.contains p.position then resolve_action_card p c else (p, c)

/-- Safe-zone arrival (sim_game_options.py lines 271-275). -/
def arrival_step (p : Player) (c : Ctx) : Player × Ctx :=
  if p.position ≥ SAFE_ZONE_INDEX then
    let p := { p with reached_safe_zone := true }
    if !c.first_to_safe then
      ({ p with bonus_points := p.bonus_points + 5, ghost_first_bonus := true },
       { c with first_to_safe := true })
    else (p, c)
  else (p, c)

/-- Tail of the simulator turn after the movement roll
(sim_game_options.py lines 246-275). -/
def turn_tail (move : Int) (p : Player) (c : Ctx) : Player × Ctx :=
  let t := token_step move p c
  let p1 := advance t.1 t.2.1
  let s := shortcut_step p1 t.2.2
  let r := red_step s.1 s.2
  arrival_step r.1 r.2

/-- One player's turn inside `_disaster_phase` (sim_game_options.py lines
236-275). -/
def disaster_turn (p : Player) (c : Ctx) : Player × Ctx :=
  if p.reached_safe_zone then (p, c)
  else if p.skipped_turns > 0 then ({ p with skipped_turns := p.skipped_turns - 1 }, c)
  else
    let m := move_roll p c
    turn_tail m.1 m.2.1 m.2.2

/-- The `for p in self.players` loop of `_disaster_phase`: every player
acts (no early exit). -/
def disaster_round : List Player → Ctx → List Player × Ctx
  | [], c => ([], c)
  | p :: rest, c =>
    let t := disaster_turn p c
    let r := disaster_round rest t.2
    (t.1 :: r.1, r.2)

structure DState where
  players : List Player
  first_to_safe : Bool
  turns : Nat
  env : Env

/-- One iteration of the `while` body (sim_game_options.py lines 234-275):
`turns += 1`, then a full round. -/
def disaster_step (st : DState) : DState :=
  let r := disaster_round st.players ⟨st.first_to_safe, st.env⟩
  ⟨r.1, r.2.first_to_safe, st.turns + 1, r.2.env⟩

/-- `while not all(reached) and turns < 200` (sim_game_options.py line
234), with structural fuel; the source loop terminates because `turns`
rises by 1 per iteration toward the 200 cap, so fuel `200 - turns` (hence
200 from the phase entry) makes the fuel case unreachable. -/
def disaster_loop : Nat → DState → DState
  | 0, st => st
  | fuel + 1, st =>
    if !(st.players.all (fun p => p.reached_safe_zone)) && st.turns < 200 then
      disaster_loop fuel (disaster_step st)
    else st

/-- Phase entry (sim_game_options.py lines 226-232): position, skipped
turns, road-block flag, arrival flag and bonus points are all reset.  The
ghost award flag is reset with `bonus_points`, which it instruments. -/
def disaster_entry (p : Player) : Player :=
  { p with position := 0, skipped_turns := 0, one_space_only := false,
           reached_safe_zone := false, bonus_points := 0, ghost_first_bonus := false }

/-- `AutoGame._disaster_phase` (sim_game_options.py lines 225-276). -/
def disaster_phase (players : List Player) (env : Env) : DState :=
  disaster_loop 200 ⟨players.map disaster_entry, false, 0, env⟩

/-- One player's preparation action (sim_game_options.py lines 211-221):
the policy picks `TakeToken` or a location visit; a visit pops the top
card when the deck is non-empty.  The ghost counter mirrors the
per-player `player_stats` action count. -/
def prep_turn (p : Player) (decks : LocDecks) (env : Env) :
    Player × LocDecks × Env :=
  let ce := env.nextSimPrep
  let env := ce.2
  let p := { p with ghost_prep_turns := p.ghost_prep_turns + 1 }
  match ce.1 with
  | .token => ({ p with tokens := p.tokens + 1 }, decks, env)
  | .visit idx =>
    let keys := decks.map (fun e => e.1)
    let loc := keys.getD (idx % keys.length) ""
    match popLast (lookupDeck decks loc) with
    | some (card, rest) =>
      ({ p with inventory := p.inventory ++ [card] }, setDeck decks loc rest, env)
    | none => (p, decks, env)

/-- The `for p in self.players` loop inside one preparation round. -/
def prep_players : List Player → LocDecks → Env → List Player × LocDecks × Env
  | [], d, e => ([], d, e)
  | p :: rest, d, e =>
    let t := prep_turn p d e
    let r := prep_players rest t.2.1 t.2.2
    (t.1 :: r.1, r.2.1, r.2.2)

/-- `for _round in range(7)` (sim_game_options.py line 210). -/
def prep_rounds : Nat → List Player × LocDecks × Env → List Player × LocDecks × Env
  | 0, s => s
  | n + 1, s =>
    let r := prep_players s.1 s.2.1 s.2.2
    prep_rounds n r

/-- `AutoGame._prep_phase` (sim_game_options.py lines 208-221). -/
def prep_phase (ps : List Player) (d : LocDecks) (e : Env) :
    List Player × LocDecks × Env :=
  prep_rounds 7 (ps, d, e)

/-- `AutoGame.play_full_game` (sim_game_options.py lines 311-316),
scoring aside: the preparation phase followed by the disaster phase. -/
def play_full_game (ps : List Player) (d : LocDecks) (e : Env) : DState :=
  let pr := prep_phase ps d e
  disaster_phase pr.1 pr.2.2

end SimOpt

/-! ### Multi-strategy simulator (`multi_strategy_eval.py`, class AutoGame) -/

namespace MSE

/-- Penalty dispatch of `AutoGame._action_card`
(multi_strategy_eval.py lines 114-119). -/
def apply_action_penalty (title : String) (p : Player) : Player :=
  if title == "Flat Tire" then { p with skipped_turns := p.skipped_turns + 1 }
  else if title == "Road Block" then { p with one_space_only := true }
  else if title == "Heavy Smoke" || title == "Blackout" then
    { p with skipped_turns := p.skipped_turns + 1 }
  else if title == "Bad Directions" then { p with position := max 0 (p.position - 4) }
  else if title == "Dehydration" || title == "Food Spoilage" then
    { p with bonus_points := p.bonus_points - 5 }
  else if title == "Medical Emergency" then { p with skipped_turns := p.skipped_turns + 2 }
  else p

/-- `AutoGame._action_card` (multi_strategy_eval.py lines 111-119). -/
def resolve_action_card (p : Player) (c : SimOpt.Ctx) : Player × SimOpt.Ctx :=
  let de := c.env.choiceList ACTION_CARDS WG.NO_CARD
  let card := de.1
  let c := { c with env := de.2 }
  if card.blocker != "" && p.has_card card.blocker then
    let ue := c.env.nextBool
    let c := { c with env := ue.2 }
    if ue.1 then (p, c) else (apply_action_penalty card.title p, c)
  else (apply_action_penalty card.title p, c)

/-- `policy.spend_token` (multi_strategy_eval.py line 102 with BasePolicy
line 42): `player.tokens and rng.random() < 0.5`, short-circuited. -/
def token_step (move : Int) (p : Player) (c : SimOpt.Ctx) : Int × Player × SimOpt.Ctx :=
  if p.tokens != 0 then
    let be := c.env.nextBool
    let c := { c with env := be.2 }
    if be.1 then (move + 5, { p with tokens := p.tokens - 1 }, c) else (move, p, c)
  else (move, p, c)

/-- Red-space check (multi_strategy_eval.py line 107). -/
def red_step (p : Player) (c : SimOpt.Ctx) : Player × SimOpt.Ctx :=
  if RED_SPACES.contains p.position then resolve_action_card p c else (p, c)

/-- Tail of the turn after the movement roll (multi_strategy_eval.py
lines 102-110); the movement roll, shortcut gamble and arrival steps
coincide with the options simulator's and reuse its stage functions. -/
def turn_tail (move : Int) (p : Player) (c : SimOpt.Ctx) : Player × SimOpt.Ctx :=
  let t := token_step move p c
  let p1 := SimOpt.advance t.1 t.2.1
  let s := SimOpt.shortcut_step p1 t.2.2
  let r := red_step s.1 s.2
  SimOpt.arrival_step r.1 r.2

/-- One player's turn inside `_disaster_phase` (multi_strategy_eval.py
lines 99-110); the combined skip check on line 100 decrements
`skipped_turns` by `skipped_turns > 0` (1 or 0). -/
def disaster_turn (p : Player) (c : SimOpt.Ctx) : Player × SimOpt.Ctx :=
  if p.reached_safe_zone || p.skipped_turns != 0 then
    ({ p with skipped_turns :=
        p.skipped_turns - (if p.skipped_turns > 0 then 1 else 0) }, c)
  else
    let m := SimOpt.move_roll p c
    turn_tail m.1 m.2.1 m.2.2

def disaster_round : List Player → SimOpt.Ctx → List Player × SimOpt.Ctx
  | [], c => ([], c)
  | p :: rest, c =>
    let t := disaster_turn p c
    let r := disaster_round rest t.2
    (t.1 :: r.1, r.2)

/-- `while not all(p.reached_safe_zone ...)` (multi_strategy_eval.py line
98), with explicit fuel; the flag records an exit through the loop
condition. -/
def disaster_loop : Nat → List Player × SimOpt.Ctx → (List Player × SimOpt.Ctx) × Bool
  | 0, s => (s, s.1.all (fun p => p.reached_safe_zone))
  | fuel + 1, s =>
    if s.1.all (fun p => p.reached_safe_zone) then (s, true)
    else disaster_loop fuel (disaster_round s.1 s.2)

/-- `AutoGame._disaster_phase` (multi_strategy_eval.py lines 95-110):
positions reset, then the loop. -/
def disaster_phase (fuel : Nat) (players : List Player) (env : Env) :
    (List Player × SimOpt.Ctx) × Bool :=
  disaster_loop fuel (players.map (fun p => { p with position := 0 }), ⟨false, env⟩)

/-- One player's preparation action (multi_strategy_eval.py lines 88-94). -/
def prep_turn (p : Player) (decks : LocDecks) (env : Env) :
    Player × LocDecks × Env :=
  let ce := env.nextSimPrep
  let env := ce.2
  let p := { p with ghost_prep_turns := p.ghost_prep_turns + 1 }
  match ce.1 with
  | .token => ({ p with tokens := p.tokens + 1 }, decks, env)
  | .visit idx =>
    let keys := decks.map (fun e => e.1)
    let loc := keys.getD (idx % keys.length) ""
    match popLast (lookupDeck decks loc) with
    | some (card, rest) =>
      ({ p with inventory := p.inventory ++ [card] }, setDeck decks loc rest, env)
    | none => (p, decks, env)

def prep_players : List Player → LocDecks → Env → List Player × LocDecks × Env
  | [], d, e => ([], d, e)
  | p :: rest, d, e =>
    let t := prep_turn p d e
    let r := prep_players rest t.2.1 t.2.2
    (t.1 :: r.1, r.2.1, r.2.2)

def prep_rounds : Nat → List Player × LocDecks × Env → List Player × LocDecks × Env
  | 0, s => s
  | n + 1, s =>
    let r := prep_players s.1 s.2.1 s.2.2
    prep_rounds n r

/-- `AutoGame._prep_phase` (multi_strategy_eval.py lines 85-94). -/
def prep_phase (ps : List Player) (d : LocDecks) (e : Env) :
    List Player × LocDecks × Env :=
  prep_rounds 7 (ps, d, e)

end MSE

/-! ### Concrete fixtures used by the closed theorems -/

def mkEnv (rolls : Nat → Nat) (bools : Nat → Bool) (choices : Nat → Nat)
    (preps : Nat → PrepChoice) (simPreps : Nat → SimPrepChoice) : Env :=
  { rollFn := rolls, boolFn := bools, choiceFn := choices, prepFn := preps,
    simPrepFn := simPreps, nameFn := fun _ => "", permFn := fun _ => [] }

def alice : Player := { name := "Alice", character := ⟨"Student", "Water Bottle", "Batteries"⟩ }

def bob : Player := { name := "Bob", character := ⟨"Parent", "Extra Clothes", "Extra Cash"⟩ }

/-- Run A: two players, every preparation choice takes a token, the
disaster die never shows a 6 (`randint(1,6) = 1` throughout). -/
def envA : Env :=
  mkEnv (fun _ => 0) (fun _ => false) (fun _ => 0) (fun _ => .token) (fun _ => .token)

def stA : WG.PState := ⟨[alice, bob], [], .prep, 1, [], envA⟩

/-- Run B: as run A but the disaster die always shows a 6. -/
def envB : Env :=
  mkEnv (fun _ => 5) (fun _ => false) (fun _ => 0) (fun _ => .token) (fun _ => .token)

def stB : WG.PState := ⟨[alice, bob], [], .prep, 1, [], envB⟩

/-- Run C: interactive disaster phase, two players with empty inventories.
Movement d3 rolls come out 3, 1, 3, 1, 2, so Alice moves 6, 6, 4 (arriving
on her third turn) while Bob moves 2, 2. -/
def envC : Env :=
  mkEnv (fun i => [2, 0, 2, 0, 1].getD i 0) (fun _ => false) (fun _ => 0)
    (fun _ => .token) (fun _ => .token)

def stC : WG.DState := ⟨[alice, bob], ⟨ACTION_CARDS, none, envC⟩⟩

/-- Run D: options simulator, one player.  d6 rolls come out 6, 1, 5, then
4 forever, and every action-card draw is Bad Directions (index 4), so the
player cycles 8 → 12 → 8 and never reaches the safe zone. -/
def envD : Env :=
  mkEnv (fun i => if i = 0 then 5 else if i = 1 then 0 else if i = 2 then 4 else 3)
    (fun _ => false) (fun _ => 4) (fun _ => .token) (fun _ => .token)

/-- Run E: multi-strategy simulator, one player.  d6 rolls are always 6
and every drawn card is Flat Tire, so the player arrives on the fourth
round and the loop exits with everyone safe. -/
def envE : Env :=
  mkEnv (fun _ => 5) (fun _ => false) (fun _ => 0) (fun _ => .token) (fun _ => .token)

/-! ### Claim C5: action-card penalties -/

/-- The eight penalty titles listed by the specification (section 4.3). -/
def LISTED_TITLES : List String :=
  ["Flat Tire", "Road Block", "Heavy Smoke", "Blackout", "Bad Directions",
   "Dehydration", "Medical Emergency", "Food Spoilage"]

/-- C5 (counterexample): the claim says any title other than the eight
listed ones leaves the player unchanged, but the interactive engine's
dispatch also handles "Car Trouble" (a card commented out of the deck) by
discarding the last inventory card: a player holding one card is changed
by it. -/
theorem claim5_counterexample :
    ("Car Trouble" ∉ LISTED_TITLES) ∧
    WG.apply_action_penalty "Car Trouble"
        { alice with inventory := [⟨"Water Bottle", 1, "Grocery Store"⟩] } ≠
      { alice with inventory := [⟨"Water Bottle", 1, "Grocery Store"⟩] } := by
  constructor
  · decide
  · intro h
    have := congrArg (fun p => p.inventory) h
    simp [WG.apply_action_penalty] at this

/-- C5 (amended): when a penalty is applied, the eight listed titles have
exactly the listed effects in both engines (Flat Tire, Heavy Smoke and
Blackout add 1 skipped turn; Medical Emergency adds 2; Road Block sets the
one-space flag; Bad Directions clamps position to `max 0 (position - 4)`;
Dehydration and Food Spoilage subtract 5 bonus points); in the interactive
engine the additional title "Car Trouble" discards the last inventory card
(a no-op on an empty inventory) and every other unrecognized title is a
no-op; in the options simulator every title outside the listed eight,
including "Car Trouble", is a no-op. -/
theorem claim5_amended :
    (∀ p : Player,
      WG.apply_action_penalty "Flat Tire" p =
          { p with skipped_turns := p.skipped_turns + 1 } ∧
      WG.apply_action_penalty "Heavy Smoke" p =
          { p with skipped_turns := p.skipped_turns + 1 } ∧
      WG.apply_action_penalty "Blackout" p =
          { p with skipped_turns := p.skipped_turns + 1 } ∧
      WG.apply_action_penalty "Medical Emergency" p =
          { p with skipped_turns := p.skipped_turns + 2 } ∧
      WG.apply_action_penalty "Road Block" p = { p with one_space_only := true } ∧
      WG.apply_action_penalty "Bad Directions" p =
          { p with position := max 0 (p.position - 4) } ∧
      WG.apply_action_penalty "Dehydration" p =
          { p with bonus_points := p.bonus_points - 5 } ∧
      WG.apply_action_penalty "Food Spoilage" p =
          { p with bonus_points := p.bonus_points - 5 } ∧
      WG.apply_action_penalty "Car Trouble" p =
          (if p.inventory.isEmpty then p else { p with inventory := p.inventory.dropLast }) ∧
      SimOpt.apply_action_penalty "Flat Tire" p =
          { p with skipped_turns := p.skipped_turns + 1 } ∧
      SimOpt.apply_action_penalty "Heavy Smoke" p =
          { p with skipped_turns := p.skipped_turns + 1 } ∧
      SimOpt.apply_action_penalty "Blackout" p =
          { p with skipped_turns := p.skipped_turns + 1 } ∧
      SimOpt.apply_action_penalty "Medical Emergency" p =
          { p with skipped_turns := p.skipped_turns + 2 } ∧
      SimOpt.apply_action_penalty "Road Block" p = { p with one_space_only := true } ∧
      SimOpt.apply_action_penalty "Bad Directions" p =
          { p with position := max 0 (p.position - 4) } ∧
      SimOpt.apply_action_penalty "Dehydration" p =
          { p with bonus_points := p.bonus_points - 5 } ∧
      SimOpt.apply_action_penalty "Food Spoilage" p =
          { p with bonus_points := p.bonus_points - 5 }) ∧
    (∀ (t : String) (p : Player), t ∉ LISTED_TITLES → t ≠ "Car Trouble" →
      WG.apply_action_penalty t p = p) ∧
    (∀ (t : String) (p : Player), t ∉ LISTED_TITLES →
      SimOpt.apply_action_penalty t p = p) ∧
    (∀ p : Player, p.position = 10 →
      (WG.apply_action_penalty "Bad Directions" p).position = 6) ∧
    (∀ p : Player, p.position = 2 →
      (WG.apply_action_penalty "Bad Directions" p).position = 0) := by
  refine ⟨fun p => ?_, fun t p ht hct => ?_, fun t p ht => ?_, fun p hp => ?_, fun p hp => ?_⟩
  · exact ⟨rfl, rfl, rfl, rfl, rfl, rfl, rfl, rfl, rfl, rfl, rfl, rfl, rfl, rfl, rfl, rfl, rfl⟩
  · unfold WG.apply_action_penalty
    simp only [LISTED_TITLES, List.mem_cons, List.mem_singleton] at ht
    push_neg at ht
    split_ifs with h1 h2 h3 h4 h5 h6 h7 h8 h9 <;>
      first
        | rfl
        | simp_all
  · unfold SimOpt.apply_action_penalty
    simp only [LISTED_TITLES, List.mem_cons, List.mem_singleton] at ht
    push_neg at ht
    split_ifs with h1 h2 h3 h4 h5 h6 <;>
      first
        | rfl
        | simp_all
  · simp [WG.apply_action_penalty, hp]
  · simp [WG.apply_action_penalty, hp]

/-- C5 (witness): the amended claim applied at the unlisted title "Panic"
and at the two Bad Directions scenario positions. -/
theorem claim5_witness :
    WG.apply_action_penalty "Panic" alice = alice ∧
    SimOpt.apply_action_penalty "Car Trouble" alice = alice ∧
    (WG.apply_action_penalty "Bad Directions" { alice with position := 10 }).position = 6 ∧
    (WG.apply_action_penalty "Bad Directions" { alice with position := 2 }).position = 0 :=
  ⟨claim5_amended.2.1 "Panic" alice (by decide) (by decide),
   claim5_amended.2.2.1 "Car Trouble" alice (by decide),
   claim5_amended.2.2.2.1 { alice with position := 10 } rfl,
   claim5_amended.2.2.2.2 { alice with position := 2 } rfl⟩

/-! ### Preparation-phase helper lemmas (simulator engines) -/

/-- The fields of a player that the simulators' preparation turns never
write (everything except tokens, inventory and the ghost turn counter). -/
def prepFrame (p : Player) : Int × Bool × Bool × Int :=
  (p.skipped_turns, p.one_space_only, p.reached_safe_zone, p.bonus_points)

lemma SimOpt.sim_prep_turn_ghost (p : Player) (d : LocDecks) (e : Env) :
    (SimOpt.prep_turn p d e).1.ghost_prep_turns = p.ghost_prep_turns + 1 := by
  unfold SimOpt.prep_turn
  dsimp only
  split <;> first | rfl | (split <;> rfl)

lemma SimOpt.prep_turn_frame (p : Player) (d : LocDecks) (e : Env) :
    prepFrame (SimOpt.prep_turn p d e).1 = prepFrame p := by
  unfold SimOpt.prep_turn
  dsimp only
  split <;> first | rfl | (split <;> rfl)

lemma MSE.mse_prep_turn_ghost (p : Player) (d : LocDecks) (e : Env) :
    (MSE.prep_turn p d e).1.ghost_prep_turns = p.ghost_prep_turns + 1 := by
  unfold MSE.prep_turn
  dsimp only
  split <;> first | rfl | (split <;> rfl)

lemma SimOpt.prep_players_map {β : Type} (f : Player → β)
    (hf : ∀ p d e, f (SimOpt.prep_turn p d e).1 = f p) :
    ∀ (ps : List Player) (d : LocDecks) (e : Env),
      (SimOpt.prep_players ps d e).1.map f = ps.map f := by
  intro ps
  induction ps with
  | nil => intro d e; rfl
  | cons p rest ih =>
    intro d e
    simp [SimOpt.prep_players, hf, ih]

lemma SimOpt.sim_prep_players_ghost :
    ∀ (ps : List Player) (d : LocDecks) (e : Env),
      (SimOpt.prep_players ps d e).1.map (fun p => p.ghost_prep_turns) =
        ps.map (fun p => p.ghost_prep_turns + 1) := by
  intro ps
  induction ps with
  | nil => intro d e; rfl
  | cons p rest ih =>
    intro d e
    simp [SimOpt.prep_players, SimOpt.sim_prep_turn_ghost, ih]

lemma MSE.mse_prep_players_ghost :
    ∀ (ps : List Player) (d : LocDecks) (e : Env),
      (MSE.prep_players ps d e).1.map (fun p => p.ghost_prep_turns) =
        ps.map (fun p => p.ghost_prep_turns + 1) := by
  intro ps
  induction ps with
  | nil => intro d e; rfl
  | cons p rest ih =>
    intro d e
    simp [MSE.prep_players, MSE.mse_prep_turn_ghost, ih]

lemma SimOpt.sim_prep_rounds_ghost :
    ∀ (n : Nat) (s : List Player × LocDecks × Env),
      (SimOpt.prep_rounds n s).1.map (fun p => p.ghost_prep_turns) =
        s.1.map (fun p => p.ghost_prep_turns + n) := by
  intro n
  induction n with
  | zero => intro s; simp [SimOpt.prep_rounds]
  | succ n ih =>
    intro s
    unfold SimOpt.prep_rounds
    rw [ih]
    have h := SimOpt.sim_prep_players_ghost s.1 s.2.1 s.2.2
    have hcomp :
        (SimOpt.prep_players s.1 s.2.1 s.2.2).1.map (fun p => p.ghost_prep_turns + n) =
          ((SimOpt.prep_players s.1 s.2.1 s.2.2).1.map
            (fun p => p.ghost_prep_turns)).map (fun k => k + n) := by
      rw [List.map_map]; rfl
    rw [hcomp, h, List.map_map]
    have : ((fun k => k + n) ∘ fun p : Player => p.ghost_prep_turns + 1) =
        fun p : Player => p.ghost_prep_turns + (n + 1) := by
      funext p; simp [Function.comp]; omega
    rw [this]

lemma MSE.mse_prep_rounds_ghost :
    ∀ (n : Nat) (s : List Player × LocDecks × Env),
      (MSE.prep_rounds n s).1.map (fun p => p.ghost_prep_turns) =
        s.1.map (fun p => p.ghost_prep_turns + n) := by
  intro n
  induction n with
  | zero => intro s; simp [MSE.prep_rounds]
  | succ n ih =>
    intro s
    unfold MSE.prep_rounds
    rw [ih]
    have h := MSE.mse_prep_players_ghost s.1 s.2.1 s.2.2
    have hcomp :
        (MSE.prep_players s.1 s.2.1 s.2.2).1.map (fun p => p.ghost_prep_turns + n) =
          ((MSE.prep_players s.1 s.2.1 s.2.2).1.map
            (fun p => p.ghost_prep_turns)).map (fun k => k + n) := by
      rw [List.map_map]; rfl
    rw [hcomp, h, List.map_map]
    have : ((fun k => k + n) ∘ fun p : Player => p.ghost_prep_turns + 1) =
        fun p : Player => p.ghost_prep_turns + (n + 1) := by
      funext p; simp [Function.comp]; omega
    rw [this]

lemma SimOpt.prep_rounds_frame :
    ∀ (n : Nat) (s : List Player × LocDecks × Env),
      (SimOpt.prep_rounds n s).1.map prepFrame = s.1.map prepFrame := by
  intro n
  induction n with
  | zero => intro s; rfl
  | succ n ih =>
    intro s
    unfold SimOpt.prep_rounds
    rw [ih, SimOpt.prep_players_map prepFrame SimOpt.prep_turn_frame]

/-! ### Claim C8: disaster-phase entry -/

/-- C8 (counterexample): the claim says every field except `position` is
left unchanged at disaster-phase entry, but the options simulator's entry
(sim_game_options.py lines 227-232) also zeroes `bonus_points` (and
`skipped_turns`, `one_space_only`, `reached_safe_zone`): applied to a
player carrying 7 bonus points and 2 skipped turns it changes both. -/
theorem claim8_counterexample :
    (SimOpt.disaster_entry { alice with bonus_points := 7, skipped_turns := 2 }).bonus_points ≠
        ({ alice with bonus_points := 7, skipped_turns := 2 } : Player).bonus_points ∧
    (SimOpt.disaster_entry { alice with bonus_points := 7, skipped_turns := 2 }).skipped_turns ≠
        ({ alice with bonus_points := 7, skipped_turns := 2 } : Player).skipped_turns := by
  constructor <;> decide

/-- C8 (amended): at disaster-phase entry the interactive engine sets each
player's position to 0 and leaves every other field unchanged; the options
simulator sets position to 0 and also resets skipped_turns, one_space_only,
reached_safe_zone and bonus_points to their defaults, leaving inventory and
tokens unchanged — and since its preparation phase never modifies those
four fields, in a full simulated run the reset coincides with their
end-of-preparation values. -/
theorem claim8_amended :
    (∀ p : Player,
      (WG.disaster_entry_player p).position = 0 ∧
      (WG.disaster_entry_player p).inventory = p.inventory ∧
      (WG.disaster_entry_player p).tokens = p.tokens ∧
      (WG.disaster_entry_player p).skipped_turns = p.skipped_turns ∧
      (WG.disaster_entry_player p).one_space_only = p.one_space_only ∧
      (WG.disaster_entry_player p).reached_safe_zone = p.reached_safe_zone ∧
      (WG.disaster_entry_player p).bonus_points = p.bonus_points ∧
      (WG.disaster_entry_player p).last_location = p.last_location) ∧
    (∀ p : Player,
      (SimOpt.disaster_entry p).position = 0 ∧
      (SimOpt.disaster_entry p).skipped_turns = 0 ∧
      (SimOpt.disaster_entry p).one_space_only = false ∧
      (SimOpt.disaster_entry p).reached_safe_zone = false ∧
      (SimOpt.disaster_entry p).bonus_points = 0 ∧
      (SimOpt.disaster_entry p).inventory = p.inventory ∧
      (SimOpt.disaster_entry p).tokens = p.tokens) ∧
    (∀ (ps : List Player) (d : LocDecks) (e : Env),
      ((SimOpt.prep_phase ps d e).1.map prepFrame) = ps.map prepFrame) := by
  refine ⟨fun p => ⟨rfl, rfl, rfl, rfl, rfl, rfl, rfl, rfl⟩,
          fun p => ⟨rfl, rfl, rfl, rfl, rfl, rfl, rfl⟩,
          fun ps d e => ?_⟩
  exact SimOpt.prep_rounds_frame 7 (ps, d, e)

/-! ### Claim C10: simulator preparation phases -/

/-- C10: both headless simulators run a preparation phase of exactly 7
rounds with no early-spark check: whatever the policy decisions and deck
state, every player's (ghost) preparation-turn counter rises by exactly 7
in one call of `_prep_phase`. -/
theorem claim10_prep_rounds :
    (∀ (ps : List Player) (d : LocDecks) (e : Env),
      (SimOpt.prep_phase ps d e).1.map (fun p => p.ghost_prep_turns) =
        ps.map (fun p => p.ghost_prep_turns + 7)) ∧
    (∀ (ps : List Player) (d : LocDecks) (e : Env),
      (MSE.prep_phase ps d e).1.map (fun p => p.ghost_prep_turns) =
        ps.map (fun p => p.ghost_prep_turns + 7)) :=
  ⟨fun ps d e => SimOpt.sim_prep_rounds_ghost 7 (ps, d, e),
   fun ps d e => MSE.mse_prep_rounds_ghost 7 (ps, d, e)⟩

/-! ### Claim C6: the 1-for-1 trade swap -/

lemma removeFirst_length (l : List ResourceCard) (c : ResourceCard) (h : c ∈ l) :
    (removeFirst l c).length + 1 = l.length := by
  induction l with
  | nil => cases h
  | cons x xs ih =>
    unfold removeFirst
    by_cases hx : (x == c) = true
    · simp [hx]
    · have hm : c ∈ xs := by
        rcases List.mem_cons.mp h with he | hm
        · exact absurd (by simp [he]) hx
        · exact hm
      simp only [hx, if_false, Bool.false_eq_true, List.length_cons]
      have := ih hm
      omega

lemma find?_name_mem_and_name (inv : List ResourceCard) (n : String) (c : ResourceCard)
    (h : inv.find? (fun c => c.name == n) = some c) : c ∈ inv ∧ c.name = n := by
  refine ⟨List.mem_of_find?_eq_some h, ?_⟩
  have := List.find?_some h
  simpa using this

lemma has_card_find?_isSome (p : Player) (n : String) (h : p.has_card n = true) :
    ∃ c, p.inventory.find? (fun c => c.name == n) = some c := by
  unfold Player.has_card at h
  rcases List.any_eq_true.mp h with ⟨c, hc, hcn⟩
  have : (p.inventory.find? (fun c => c.name == n)).isSome := by
    rw [List.find?_isSome]
    exact ⟨c, hc, hcn⟩
  exact Option.isSome_iff_exists.mp this

/-- C6: for every trade proposal between two players naming cards to give
and take: when each named card is owned by its claimed holder, the swap
leaves the proposer holding a card of the requested name and the partner
holding the offered one, with both inventory sizes unchanged and no other
field modified; when either card is not owned as claimed, the trade fails
with both players completely unchanged. -/
theorem claim6_trade :
    (∀ (p q : Player) (give take : String),
      p.has_card give = true → q.has_card take = true →
      ((WG.trade_pair p q give take).1.has_card take = true ∧
       (WG.trade_pair p q give take).2.has_card give = true ∧
       (WG.trade_pair p q give take).1.inventory.length = p.inventory.length ∧
       (WG.trade_pair p q give take).2.inventory.length = q.inventory.length ∧
       (WG.trade_pair p q give take).1 =
         { p with inventory := (WG.trade_pair p q give take).1.inventory } ∧
       (WG.trade_pair p q give take).2 =
         { q with inventory := (WG.trade_pair p q give take).2.inventory })) ∧
    (∀ (p q : Player) (give take : String),
      ¬(p.has_card give = true ∧ q.has_card take = true) →
      WG.trade_pair p q give take = (p, q)) := by
  constructor
  · intro p q give take hp hq
    obtain ⟨cg, hcg⟩ := has_card_find?_isSome p give hp
    obtain ⟨ct, hct⟩ := has_card_find?_isSome q take hq
    obtain ⟨hcgm, hcgn⟩ := find?_name_mem_and_name _ _ _ hcg
    obtain ⟨hctm, hctn⟩ := find?_name_mem_and_name _ _ _ hct
    have hg : WG.trade_pair p q give take =
        ({ p with inventory := removeFirst p.inventory cg ++ [ct] },
         { q with inventory := removeFirst q.inventory ct ++ [cg] }) := by
      unfold WG.trade_pair
      rw [hp, hq]
      simp only [Bool.not_true, Bool.false_or, Bool.or_self, if_false, Bool.false_eq_true]
      rw [hcg, hct]
    rw [hg]
    refine ⟨?_, ?_, ?_, ?_, rfl, rfl⟩
    · unfold Player.has_card
      simp only
      rw [List.any_eq_true]
      exact ⟨ct, by simp, by simp [hctn]⟩
    · unfold Player.has_card
      simp only
      rw [List.any_eq_true]
      exact ⟨cg, by simp, by simp [hcgn]⟩
    · simp only [List.length_append, List.length_singleton]
      have := removeFirst_length p.inventory cg hcgm
      omega
    · simp only [List.length_append, List.length_singleton]
      have := removeFirst_length q.inventory ct hctm
      omega
  · intro p q give take h
    unfold WG.trade_pair
    cases hA : p.has_card give <;> cases hB : q.has_card take <;> simp_all

/-- C6 (witness): a concrete successful trade between Alice (holding a
Water Bottle) and Bob (holding Canned Food). -/
theorem claim6_witness :
    ((WG.trade_pair { alice with inventory := [⟨"Water Bottle", 1, "Grocery Store"⟩] }
        { bob with inventory := [⟨"Canned Food", 3, "Grocery Store"⟩] }
        "Water Bottle" "Canned Food").1.has_card "Canned Food" = true ∧
     (WG.trade_pair { alice with inventory := [⟨"Water Bottle", 1, "Grocery Store"⟩] }
        { bob with inventory := [⟨"Canned Food", 3, "Grocery Store"⟩] }
        "Water Bottle" "Canned Food").2.has_card "Water Bottle" = true ∧
     (WG.trade_pair { alice with inventory := [⟨"Water Bottle", 1, "Grocery Store"⟩] }
        { bob with inventory := [⟨"Canned Food", 3, "Grocery Store"⟩] }
        "Water Bottle" "Canned Food").1.inventory.length =
       ({ alice with inventory := [⟨"Water Bottle", 1, "Grocery Store"⟩] } : Player).inventory.length ∧
     (WG.trade_pair { alice with inventory := [⟨"Water Bottle", 1, "Grocery Store"⟩] }
        { bob with inventory := [⟨"Canned Food", 3, "Grocery Store"⟩] }
        "Water Bottle" "Canned Food").2.inventory.length =
       ({ bob with inventory := [⟨"Canned Food", 3, "Grocery Store"⟩] } : Player).inventory.length ∧
     (WG.trade_pair { alice with inventory := [⟨"Water Bottle", 1, "Grocery Store"⟩] }
        { bob with inventory := [⟨"Canned Food", 3, "Grocery Store"⟩] }
        "Water Bottle" "Canned Food").1 =
       { ({ alice with inventory := [⟨"Water Bottle", 1, "Grocery Store"⟩] } : Player) with
           inventory :=
             (WG.trade_pair { alice with inventory := [⟨"Water Bottle", 1, "Grocery Store"⟩] }
               { bob with inventory := [⟨"Canned Food", 3, "Grocery Store"⟩] }
               "Water Bottle" "Canned Food").1.inventory } ∧
     (WG.trade_pair { alice with inventory := [⟨"Water Bottle", 1, "Grocery Store"⟩] }
        { bob with inventory := [⟨"Canned Food", 3, "Grocery Store"⟩] }
        "Water Bottle" "Canned Food").2 =
       { ({ bob with inventory := [⟨"Canned Food", 3, "Grocery Store"⟩] } : Player) with
           inventory :=
             (WG.trade_pair { alice with inventory := [⟨"Water Bottle", 1, "Grocery Store"⟩] }
               { bob with inventory := [⟨"Canned Food", 3, "Grocery Store"⟩] }
               "Water Bottle" "Canned Food").2.inventory }) :=
  claim6_trade.1 { alice with inventory := [⟨"Water Bottle", 1, "Grocery Store"⟩] }
    { bob with inventory := [⟨"Canned Food", 3, "Grocery Store"⟩] }
    "Water Bottle" "Canned Food" (by decide) (by decide)

/-! ### Claim C7: the early-spark check -/

lemma WG.prep_round_go_log_ge (round : Nat) :
    ∀ (ps : List Player) (decks : LocDecks) (log : List Nat) (env : Env),
      log.all (fun r => decide (4 ≤ r)) = true →
      ((WG.prep_round_go round ps decks log env).2.2.1).all (fun r => decide (4 ≤ r)) = true := by
  intro ps
  induction ps with
  | nil => intro decks log env h; exact h
  | cons p rest ih =>
    intro decks log env h
    unfold WG.prep_round_go
    dsimp only
    by_cases h3 : round > 3
    · have hlog :
          (log ++ [round]).all (fun r => decide (4 ≤ r)) = true := by
        rw [List.all_append, h]
        simp
        omega
      simp only [h3, if_true]
      split
      · exact hlog
      · exact ih _ _ _ hlog
    · simp only [h3, if_false]
      exact ih _ _ _ h

lemma WG.preparation_loop_log_ge :
    ∀ (fuel : Nat) (st : WG.PState),
      st.die_log.all (fun r => decide (4 ≤ r)) = true →
      ((WG.preparation_loop fuel st).die_log).all (fun r => decide (4 ≤ r)) = true := by
  intro fuel
  induction fuel with
  | zero => intro st h; exact h
  | succ fuel ih =>
    intro st h
    unfold WG.preparation_loop
    by_cases hp : st.phase = WG.GamePhase.prep
    · simp only [hp, if_true]
      have hr := WG.prep_round_go_log_ge st.prep_round st.players st.location_decks
        st.die_log st.env h
      split
      · exact hr
      · split
        · exact hr
        · exact ih _ hr
    · simp only [hp, if_false]
      exact h

/-- C7 (counterexample): with two players and harmless die rolls, round 4
of the interactive preparation phase rolls the disaster die twice (once
after each player's turn), not "exactly once per full round, after all
players have acted". -/
theorem claim7_counterexample :
    ((WG.preparation_phase 7 stA).die_log.count 4 = 2) ∧
    ¬((WG.preparation_phase 7 stA).die_log.count 4 = 1) := by
  constructor <;> decide

/-- C7 (amended): the early-spark check is performed after each player's
turn (so up to once per player per round), and only from round 4 onward:
no disaster-die roll is logged for rounds 1-3 in any run; each check rolls
one d6 and on a 6 the phase transitions immediately to disaster,
preempting the remaining players of the current round (run B: the spark
fires on the first round-4 check, exactly one roll is logged, and the
second player has taken only 3 turns); run A (two players, no 6s) logs two
rolls in each of rounds 4-7. -/
theorem claim7_amended :
    (∀ (fuel : Nat) (st : WG.PState),
      st.die_log.all (fun r => decide (4 ≤ r)) = true →
      ((WG.preparation_loop fuel st).die_log).all (fun r => decide (4 ≤ r)) = true) ∧
    ((WG.preparation_phase 7 stB).phase = WG.GamePhase.disaster ∧
     (WG.preparation_phase 7 stB).die_log = [4] ∧
     (WG.preparation_phase 7 stB).players.map (fun p => p.ghost_prep_turns) = [4, 3]) ∧
    (WG.preparation_phase 7 stA).die_log = [4, 4, 5, 5, 6, 6, 7, 7] := by
  exact ⟨WG.preparation_loop_log_ge, ⟨by decide, by decide, by decide⟩, by decide⟩

/-- C7 (witness): the amended claim's general part applied to run A, whose
initial log is empty: every logged disaster-die roll happens in round 4 or
later. -/
theorem claim7_witness :
    ((WG.preparation_loop 7 stA).die_log).all (fun r => decide (4 ≤ r)) = true :=
  claim7_amended.1 7 stA (by decide)

/-! ### Claim C9: termination of the options simulator's disaster loop -/

lemma SimOpt.disaster_step_turns (st : SimOpt.DState) :
    (SimOpt.disaster_step st).turns = st.turns + 1 := rfl

lemma SimOpt.disaster_loop_turns_le :
    ∀ (fuel : Nat) (st : SimOpt.DState), st.turns ≤ 200 →
      (SimOpt.disaster_loop fuel st).turns ≤ 200 := by
  intro fuel
  induction fuel with
  | zero => intro st h; exact h
  | succ fuel ih =>
    intro st h
    unfold SimOpt.disaster_loop
    split
    · rename_i hc
      simp only [Bool.and_eq_true, decide_eq_true_eq] at hc
      exact ih _ (by rw [SimOpt.disaster_step_turns]; omega)
    · exact h

lemma SimOpt.disaster_loop_exit :
    ∀ (fuel : Nat) (st : SimOpt.DState), 200 ≤ st.turns + fuel →
      ((SimOpt.disaster_loop fuel st).players.all (fun p => p.reached_safe_zone) = true ∨
        200 ≤ (SimOpt.disaster_loop fuel st).turns) := by
  intro fuel
  induction fuel with
  | zero =>
    intro st h
    right
    simpa using h
  | succ fuel ih =>
    intro st h
    unfold SimOpt.disaster_loop
    split
    · exact ih _ (by rw [SimOpt.disaster_step_turns]; omega)
    · rename_i hc
      cases hall : st.players.all (fun p => p.reached_safe_zone) with
      | true => exact Or.inl rfl
      | false =>
        right
        have hn : ¬ st.turns < 200 := fun hlt => hc (by simp [hall, hlt])
        omega

/-- Exit condition of the options simulator's disaster phase. -/
lemma SimOpt.disaster_phase_exit (ps : List Player) (e : Env) :
    (SimOpt.disaster_phase ps e).turns ≤ 200 ∧
    ((SimOpt.disaster_phase ps e).players.all (fun p => p.reached_safe_zone) = true ∨
      (SimOpt.disaster_phase ps e).turns = 200) := by
  have h1 := SimOpt.disaster_loop_turns_le 200
    ⟨ps.map SimOpt.disaster_entry, false, 0, e⟩ (by simp)
  have h2 := SimOpt.disaster_loop_exit 200
    ⟨ps.map SimOpt.disaster_entry, false, 0, e⟩ (by simp)
  unfold SimOpt.disaster_phase
  refine ⟨h1, ?_⟩
  rcases h2 with h | h
  · exact Or.inl h
  · exact Or.inr (by omega)

set_option maxRecDepth 100000 in
/-- C9: the options simulator's disaster phase always terminates: its loop
iterates at most 200 rounds, and at exit either every player has reached
the safe zone or the 200-round cap was hit — and the cap case is real: in
run D the lone player cycles 8 → 12 → 8 under Bad Directions draws, the
phase ends at exactly 200 rounds and the player still has
`reached_safe_zone = false`. -/
theorem claim9_termination :
    (∀ (ps : List Player) (e : Env),
      (SimOpt.disaster_phase ps e).turns ≤ 200 ∧
      ((SimOpt.disaster_phase ps e).players.all (fun p => p.reached_safe_zone) = true ∨
        (SimOpt.disaster_phase ps e).turns = 200)) ∧
    ((SimOpt.disaster_phase [alice] envD).turns = 200 ∧
     (SimOpt.disaster_phase [alice] envD).players.all (fun p => p.reached_safe_zone) = false) := by
  constructor
  · exact SimOpt.disaster_phase_exit
  · exact ⟨rfl, rfl⟩

/-! ### Invariant machinery for claims C1, C3 and C4 -/

/-- Position within the board bounds. -/
def posOK (p : Player) : Prop := 0 ≤ p.position ∧ p.position ≤ SAFE_ZONE_INDEX

/-- Number of players carrying the first-arrival award. -/
def awardCount (ps : List Player) : Nat :=
  ps.countP (fun p => p.ghost_first_bonus)

/-- Awarded players have reached the safe zone. -/
def ghostReached (ps : List Player) : Prop :=
  ∀ p ∈ ps, p.ghost_first_bonus = true → p.reached_safe_zone = true

/-- The recorded first arriver, when present, is awarded and safe. -/
def firstOK (o : Option Player) : Prop :=
  ∀ q, o = some q → q.ghost_first_bonus = true ∧ q.reached_safe_zone = true

lemma awardCount_cons (p : Player) (ps : List Player) :
    awardCount (p :: ps) = awardCount ps + (if p.ghost_first_bonus = true then 1 else 0) :=
  List.countP_cons _ _ _

lemma set_getElem?_self {α : Type} :
    ∀ (l : List α) (i : Nat) (x : α), l[i]? = some x → l.set i x = l := by
  intro l
  induction l with
  | nil => intro i x h; cases h
  | cons a as ih =>
    intro i x h
    cases i with
    | zero => simp_all
    | succ i =>
      simp only [List.getElem?_cons_succ] at h
      simp [List.set_cons_succ, ih i x h]

/-! #### Stage lemmas, interactive engine -/

lemma WG.move_roll_spec (p : Player) (c : WG.Ctx) :
    0 ≤ (WG.move_roll p c).1 ∧
    (WG.move_roll p c).2.1.position = p.position ∧
    (WG.move_roll p c).2.1.reached_safe_zone = p.reached_safe_zone ∧
    (WG.move_roll p c).2.1.ghost_first_bonus = p.ghost_first_bonus ∧
    (WG.move_roll p c).2.2.first_to_safe_zone = c.first_to_safe_zone := by
  unfold WG.move_roll
  dsimp only
  split
  · exact ⟨by norm_num, rfl, rfl, rfl, rfl⟩
  · exact ⟨by positivity, rfl, rfl, rfl, rfl⟩

lemma WG.token_step_spec (m : Int) (p : Player) (c : WG.Ctx) :
    (0 ≤ m → 0 ≤ (WG.token_step m p c).1) ∧
    (WG.token_step m p c).2.1.position = p.position ∧
    (WG.token_step m p c).2.1.reached_safe_zone = p.reached_safe_zone ∧
    (WG.token_step m p c).2.1.ghost_first_bonus = p.ghost_first_bonus ∧
    (WG.token_step m p c).2.2.first_to_safe_zone = c.first_to_safe_zone := by
  unfold WG.token_step
  dsimp only
  split_ifs <;> exact ⟨by intro h; omega, rfl, rfl, rfl, rfl⟩

lemma WG.advance_posOK (m : Int) (p : Player) (hm : 0 ≤ m) (hp : 0 ≤ p.position) :
    posOK (WG.advance m p) := by
  unfold WG.advance posOK
  dsimp only
  simp only [SAFE_ZONE_INDEX, PATH_LENGTH]
  omega

lemma WG.advance_frame (m : Int) (p : Player) :
    (WG.advance m p).reached_safe_zone = p.reached_safe_zone ∧
    (WG.advance m p).ghost_first_bonus = p.ghost_first_bonus := ⟨rfl, rfl⟩

lemma WG.shortcut_step_spec (p : Player) (c : WG.Ctx) :
    (posOK p → posOK (WG.shortcut_step p c).1) ∧
    (WG.shortcut_step p c).1.reached_safe_zone = p.reached_safe_zone ∧
    (WG.shortcut_step p c).1.ghost_first_bonus = p.ghost_first_bonus ∧
    (WG.shortcut_step p c).2.first_to_safe_zone = c.first_to_safe_zone := by
  unfold WG.shortcut_step posOK
  dsimp only
  split_ifs <;>
    refine ⟨?_, rfl, rfl, rfl⟩ <;>
    simp only [SAFE_ZONE_INDEX, PATH_LENGTH] <;> omega

lemma WG.apply_action_penalty_spec (t : String) (p : Player) :
    (posOK p → posOK (WG.apply_action_penalty t p)) ∧
    (WG.apply_action_penalty t p).reached_safe_zone = p.reached_safe_zone ∧
    (WG.apply_action_penalty t p).ghost_first_bonus = p.ghost_first_bonus := by
  unfold WG.apply_action_penalty posOK
  split_ifs <;>
    refine ⟨?_, rfl, rfl⟩ <;>
    simp only [SAFE_ZONE_INDEX, PATH_LENGTH] <;> omega

lemma WG.draw_action_card_first (c : WG.Ctx) :
    (WG.draw_action_card c).2.first_to_safe_zone = c.first_to_safe_zone := by
  unfold WG.draw_action_card
  dsimp only
  split <;> rfl

lemma WG.resolve_action_card_spec (p : Player) (c : WG.Ctx) :
    (posOK p → posOK (WG.resolve_action_card p c).1) ∧
    (WG.resolve_action_card p c).1.reached_safe_zone = p.reached_safe_zone ∧
    (WG.resolve_action_card p c).1.ghost_first_bonus = p.ghost_first_bonus ∧
    (WG.resolve_action_card p c).2.first_to_safe_zone = c.first_to_safe_zone := by
  have hd := WG.draw_action_card_first c
  have hs := WG.apply_action_penalty_spec (WG.draw_action_card c).1.title p
  unfold WG.resolve_action_card
  dsimp only
  split_ifs <;>
    first
      | exact ⟨fun h => h, rfl, rfl, hd⟩
      | exact ⟨fun h => hs.1 h, hs.2.1, hs.2.2, hd⟩

lemma WG.red_step_spec (p : Player) (c : WG.Ctx) :
    (posOK p → posOK (WG.red_step p c).1) ∧
    (WG.red_step p c).1.reached_safe_zone = p.reached_safe_zone ∧
    (WG.red_step p c).1.ghost_first_bonus = p.ghost_first_bonus ∧
    (WG.red_step p c).2.first_to_safe_zone = c.first_to_safe_zone := by
  unfold WG.red_step
  split
  · exact WG.resolve_action_card_spec p c
  · exact ⟨fun h => h, rfl, rfl, rfl⟩

lemma WG.arrival_step_spec (p : Player) (c : WG.Ctx) :
    (WG.arrival_step p c).1.position = p.position ∧
    (p.reached_safe_zone = true → (WG.arrival_step p c).1.reached_safe_zone = true) ∧
    (c.first_to_safe_zone.isSome = true →
      (WG.arrival_step p c).2.first_to_safe_zone = c.first_to_safe_zone ∧
      (WG.arrival_step p c).1.ghost_first_bonus = p.ghost_first_bonus) ∧
    (c.first_to_safe_zone = none →
      ((WG.arrival_step p c).2.first_to_safe_zone = none ∧
       (WG.arrival_step p c).1.ghost_first_bonus = p.ghost_first_bonus) ∨
      ((WG.arrival_step p c).2.first_to_safe_zone = some (WG.arrival_step p c).1 ∧
       (WG.arrival_step p c).1.ghost_first_bonus = true ∧
       (WG.arrival_step p c).1.reached_safe_zone = true)) := by
  unfold WG.arrival_step
  dsimp only
  split_ifs with hpos hnone
  · refine ⟨rfl, fun _ => rfl, fun hsome => ?_, fun _ => Or.inr ⟨rfl, rfl, rfl⟩⟩
    rw [Option.isNone_iff_eq_none.mp hnone] at hsome
    simp at hsome
  · refine ⟨rfl, fun _ => rfl, fun _ => ⟨rfl, rfl⟩, fun hn => ?_⟩
    rw [hn] at hnone
    simp at hnone
  · exact ⟨rfl, fun h => h, fun _ => ⟨rfl, rfl⟩, fun hn => Or.inl ⟨hn, rfl⟩⟩

/-- Invariant behavior of the whole post-roll tail of a turn. -/
lemma WG.turn_tail_spec (m : Int) (p : Player) (c : WG.Ctx) (hm : 0 ≤ m) :
    (posOK p → posOK (WG.turn_tail m p c).1) ∧
    ((p.ghost_first_bonus = true → p.reached_safe_zone = true) →
      posOK p →
      (WG.turn_tail m p c).1.ghost_first_bonus = true →
      (WG.turn_tail m p c).1.reached_safe_zone = true) ∧
    (c.first_to_safe_zone.isSome = true →
      (WG.turn_tail m p c).2.first_to_safe_zone = c.first_to_safe_zone ∧
      (WG.turn_tail m p c).1.ghost_first_bonus = p.ghost_first_bonus) ∧
    (c.first_to_safe_zone = none →
      ((WG.turn_tail m p c).2.first_to_safe_zone = none ∧
       (WG.turn_tail m p c).1.ghost_first_bonus = p.ghost_first_bonus) ∨
      ((WG.turn_tail m p c).2.first_to_safe_zone = some (WG.turn_tail m p c).1 ∧
       (WG.turn_tail m p c).1.ghost_first_bonus = true ∧
       (WG.turn_tail m p c).1.reached_safe_zone = true)) := by
  unfold WG.turn_tail
  dsimp only
  have ht := WG.token_step_spec m p c
  generalize hT : WG.token_step m p c = T at *
  have hadvf := WG.advance_frame T.1 T.2.1
  generalize hP : WG.advance T.1 T.2.1 = P at *
  have hs := WG.shortcut_step_spec P T.2.2
  generalize hS : WG.shortcut_step P T.2.2 = S at *
  have hr := WG.red_step_spec S.1 S.2
  generalize hR : WG.red_step S.1 S.2 = R at *
  have ha := WG.arrival_step_spec R.1 R.2
  generalize hA : WG.arrival_step R.1 R.2 = A at *
  -- chained frame facts
  have hghost : R.1.ghost_first_bonus = p.ghost_first_bonus := by
    rw [hr.2.2.1, hs.2.2.1, hadvf.2, ht.2.2.2.1]
  have hfirst : R.2.first_to_safe_zone = c.first_to_safe_zone := by
    rw [hr.2.2.2, hs.2.2.2, ht.2.2.2.2]
  have hreached : R.1.reached_safe_zone = p.reached_safe_zone := by
    rw [hr.2.1, hs.2.1, hadvf.1, ht.2.2.1]
  refine ⟨fun hpOK => ?_, fun hgr hpOK hga => ?_, fun hsome => ?_, fun hnone => ?_⟩
  · have hPOK : posOK P := by
      rw [← hP]
      exact WG.advance_posOK T.1 T.2.1 (ht.1 hm) (by rw [ht.2.1]; exact hpOK.1)
    have hROK : posOK R.1 := hr.1 (hs.1 hPOK)
    have : posOK A.1 := by
      unfold posOK at hROK ⊢
      rw [ha.1]
      exact hROK
    exact this
  · rcases Option.eq_none_or_eq_some c.first_to_safe_zone with hn | ⟨q, hq⟩
    · rcases ha.2.2.2 (hfirst ▸ hn) with ⟨-, hg⟩ | ⟨-, -, hrch⟩
      · rw [hg, hghost] at hga
        exact ha.2.1 (by rw [hreached]; exact hgr hga)
      · exact hrch
    · have hg := (ha.2.2.1 (by rw [hfirst, hq]; rfl)).2
      rw [hg, hghost] at hga
      exact ha.2.1 (by rw [hreached]; exact hgr hga)
  · have h1 := ha.2.2.1 (by rw [hfirst]; exact hsome)
    exact ⟨by rw [h1.1, hfirst], by rw [h1.2, hghost]⟩
  · rcases ha.2.2.2 (by rw [hfirst]; exact hnone) with ⟨h1, h2⟩ | h
    · exact Or.inl ⟨h1, by rw [h2, hghost]⟩
    · exact Or.inr h

/-- Combined per-turn invariant for the interactive engine. -/
lemma WG.take_disaster_turn_spec (p : Player) (c : WG.Ctx) :
    (posOK p → posOK (WG.take_disaster_turn p c).1) ∧
    ((p.ghost_first_bonus = true → p.reached_safe_zone = true) →
      posOK p →
      (WG.take_disaster_turn p c).1.ghost_first_bonus = true →
      (WG.take_disaster_turn p c).1.reached_safe_zone = true) ∧
    (c.first_to_safe_zone.isSome = true →
      (WG.take_disaster_turn p c).2.first_to_safe_zone = c.first_to_safe_zone ∧
      (WG.take_disaster_turn p c).1.ghost_first_bonus = p.ghost_first_bonus) ∧
    (c.first_to_safe_zone = none →
      ((WG.take_disaster_turn p c).2.first_to_safe_zone = none ∧
       (WG.take_disaster_turn p c).1.ghost_first_bonus = p.ghost_first_bonus) ∨
      ((WG.take_disaster_turn p c).2.first_to_safe_zone =
          some (WG.take_disaster_turn p c).1 ∧
       (WG.take_disaster_turn p c).1.ghost_first_bonus = true ∧
       (WG.take_disaster_turn p c).1.reached_safe_zone = true)) := by
  unfold WG.take_disaster_turn
  dsimp only
  split_ifs with hreach hskip
  · exact ⟨fun h => h, fun _ _ hga => hreach, fun _ => ⟨rfl, rfl⟩, fun hn => Or.inl ⟨hn, rfl⟩⟩
  · exact ⟨fun h => h, fun hgr _ hga => hgr hga, fun _ => ⟨rfl, rfl⟩,
      fun hn => Or.inl ⟨hn, rfl⟩⟩
  · have hmv := WG.move_roll_spec p c
    generalize hM : WG.move_roll p c = M at *
    have htail := WG.turn_tail_spec M.1 M.2.1 M.2.2 hmv.1
    refine ⟨fun hpOK => ?_, fun hgr hpOK hga => ?_, fun hsome => ?_, fun hnone => ?_⟩
    · exact htail.1 (by unfold posOK at hpOK ⊢; rw [hmv.2.1]; exact hpOK)
    · exact htail.2.1
        (by rw [hmv.2.2.2.1, hmv.2.2.1]; exact hgr)
        (by unfold posOK; rw [hmv.2.1]; exact hpOK) hga
    · have := htail.2.2.1 (by rw [hmv.2.2.2.2]; exact hsome)
      exact ⟨by rw [this.1, hmv.2.2.2.2], by rw [this.2, hmv.2.2.2.1]⟩
    · rcases htail.2.2.2 (by rw [hmv.2.2.2.2]; exact hnone) with ⟨h1, h2⟩ | h
      · exact Or.inl ⟨h1, by rw [h2, hmv.2.2.2.1]⟩
      · exact Or.inr h

/-! #### Trading-phase frame (it only rearranges inventories) -/

/-- A player with the inventory forgotten: every other field is untouched
by the trading phase. -/
def shadow (p : Player) : Player := { p with inventory := [] }

lemma WG.trade_pair_shadow (p q : Player) (give take : String) :
    shadow (WG.trade_pair p q give take).1 = shadow p ∧
    shadow (WG.trade_pair p q give take).2 = shadow q := by
  unfold WG.trade_pair
  split_ifs
  · exact ⟨rfl, rfl⟩
  · split <;> exact ⟨rfl, rfl⟩

lemma map_shadow_set_set (players : List Player) (i j : Nat) (p q x y : Player)
    (hp : players[i]? = some p) (hq : players[j]? = some q) (hij : j ≠ i)
    (hx : shadow x = shadow p) (hy : shadow y = shadow q) :
    ((players.set i x).set j y).map shadow = players.map shadow := by
  rw [List.map_set, List.map_set, hx, hy]
  have hip : (players.map shadow)[i]? = some (shadow p) := by
    rw [List.getElem?_map, hp]; rfl
  have hjq : ((players.map shadow).set i (shadow p))[j]? = some (shadow q) := by
    rw [List.getElem?_set_ne (fun h => hij h.symm), List.getElem?_map, hq]; rfl
  rw [set_getElem?_self _ _ _ hjq, set_getElem?_self _ _ _ hip]

lemma WG.trading_go_shadow (activeIdx : List Nat) :
    ∀ (todo : List Nat) (players : List Player) (env : Env),
      (WG.trading_go activeIdx players env todo).1.map shadow = players.map shadow := by
  intro todo
  induction todo with
  | nil => intro players env; rfl
  | cons i rest ih =>
    intro players env
    unfold WG.trading_go
    dsimp only
    split
    · exact ih _ _
    · rename_i p hp
      split
      · exact ih _ _
      · split
        · exact ih _ _
        · split
          · exact ih _ _
          · rename_i j hj
            split
            · exact ih _ _
            · rename_i q hq
              have hjmem := List.mem_of_find?_eq_some hj
              have hij : j ≠ i := by
                have := (List.mem_filter.mp hjmem).2
                simpa using this
              rw [ih]
              exact map_shadow_set_set players i j p q _ _ hp hq hij
                (WG.trade_pair_shadow p q _ _).1 (WG.trade_pair_shadow p q _ _).2

lemma WG.trading_phase_shadow (players : List Player) (env : Env) :
    (WG.trading_phase players env).1.map shadow = players.map shadow := by
  unfold WG.trading_phase
  exact WG.trading_go_shadow _ _ _ _

/-- Transfer of shadow-determined facts across a map-shadow equality. -/
lemma forall_of_map_shadow {A B : List Player}
    (h : A.map shadow = B.map shadow) (P : Player → Prop)
    (hP : ∀ x y : Player, shadow x = shadow y → P y → P x) :
    (∀ p ∈ B, P p) → (∀ p ∈ A, P p) := by
  intro hB p hpA
  have : shadow p ∈ A.map shadow := List.mem_map.mpr ⟨p, hpA, rfl⟩
  rw [h] at this
  rcases List.mem_map.mp this with ⟨q, hqB, hqs⟩
  exact hP p q hqs.symm (hB q hqB)

lemma awardCount_of_map_shadow {A B : List Player}
    (h : A.map shadow = B.map shadow) : awardCount A = awardCount B := by
  unfold awardCount
  have hA := List.countP_map (fun p : Player => p.ghost_first_bonus) shadow A
  have hB := List.countP_map (fun p : Player => p.ghost_first_bonus) shadow B
  have hfun : ((fun p : Player => p.ghost_first_bonus) ∘ shadow) =
      (fun p : Player => p.ghost_first_bonus) := by
    funext p; rfl
  rw [hfun] at hA hB
  rw [← hA, ← hB, h]

/-! #### Round and loop invariants, interactive engine -/

lemma WG.disaster_round_spec :
    ∀ (ps : List Player) (c : WG.Ctx),
      (∀ p ∈ ps, posOK p) →
      ghostReached ps →
      awardCount ps = (if c.first_to_safe_zone.isSome then 1 else 0) →
      firstOK c.first_to_safe_zone →
      ((∀ p ∈ (WG.disaster_round ps c).1, posOK p) ∧
       ghostReached (WG.disaster_round ps c).1 ∧
       awardCount (WG.disaster_round ps c).1 =
         (if (WG.disaster_round ps c).2.first_to_safe_zone.isSome then 1 else 0) ∧
       firstOK (WG.disaster_round ps c).2.first_to_safe_zone) := by
  intro ps
  induction ps with
  | nil =>
    intro c hpos hgr hcount hfok
    exact ⟨hpos, hgr, hcount, hfok⟩
  | cons p rest ih =>
    intro c hpos hgr hcount hfok
    unfold WG.disaster_round
    dsimp only
    have hturn := WG.take_disaster_turn_spec p c
    have hposp : posOK p := hpos p (List.mem_cons_self p rest)
    have hposrest : ∀ x ∈ rest, posOK x := fun x hx => hpos x (List.mem_cons_of_mem p hx)
    have hgrp := hgr p (List.mem_cons_self p rest)
    have hgrrest : ghostReached rest := fun x hx => hgr x (List.mem_cons_of_mem p hx)
    rw [awardCount_cons] at hcount
    split
    · -- someone has now arrived: break, remaining players untouched
      rename_i hbr
      dsimp only
      refine ⟨?_, ?_, ?_, ?_⟩
      · intro x hx
        rcases List.mem_cons.mp hx with rfl | hx
        · exact hturn.1 hposp
        · exact hposrest x hx
      · intro x hx
        rcases List.mem_cons.mp hx with rfl | hx
        · exact hturn.2.1 hgrp hposp
        · exact hgrrest x hx
      · rw [awardCount_cons]
        rcases Option.eq_none_or_eq_some c.first_to_safe_zone with hn | ⟨q, hq⟩
        · rcases hturn.2.2.2 hn with ⟨hf1, -⟩ | ⟨-, hgt, -⟩
          · rw [hf1] at hbr; simp at hbr
          · rw [hn] at hcount
            norm_num at hcount
            rw [hgt, if_pos rfl]
            have := hcount.1
            omega
        · have hfr := hturn.2.2.1 (by rw [hq]; rfl)
          rw [hq] at hcount
          norm_num at hcount
          rw [hfr.2]
          exact hcount
      · rcases Option.eq_none_or_eq_some c.first_to_safe_zone with hn | ⟨q, hq⟩
        · rcases hturn.2.2.2 hn with ⟨hf1, -⟩ | ⟨hf1, hgt, hrt⟩
          · rw [hf1] at hbr; simp at hbr
          · intro x hx
            rw [hf1] at hx
            cases hx
            exact ⟨hgt, hrt⟩
        · have hfr := hturn.2.2.1 (by rw [hq]; rfl)
          intro x hx
          rw [hfr.1] at hx
          exact hfok x hx
    · -- no arrival yet: the rest of the round runs
      rename_i hbr
      dsimp only
      have hcnone : c.first_to_safe_zone = none := by
        rcases Option.eq_none_or_eq_some c.first_to_safe_zone with hn | ⟨q, hq⟩
        · exact hn
        · exfalso
          apply hbr
          rw [(hturn.2.2.1 (by rw [hq]; rfl)).1, hq]
          rfl
      rcases hturn.2.2.2 hcnone with ⟨hf1, hf2⟩ | ⟨hf1, -, -⟩
      swap
      · exfalso; apply hbr; rw [hf1]; rfl
      rw [hcnone] at hcount
      simp only [Option.isSome_none] at hcount
      have hpg : p.ghost_first_bonus = false := by
        cases hpgv : p.ghost_first_bonus
        · rfl
        · rw [hpgv, if_pos rfl] at hcount
          simp at hcount
      have hcrest : awardCount rest =
          (if (WG.take_disaster_turn p c).2.first_to_safe_zone.isSome then 1 else 0) := by
        rw [hf1]
        simp only [Option.isSome_none]
        rw [hpg] at hcount
        simp at hcount
        simp [hcount]
      have hrec := ih (WG.take_disaster_turn p c).2 hposrest hgrrest hcrest
        (by rw [hf1]; intro x hx; cases hx)
      refine ⟨?_, ?_, ?_, hrec.2.2.2⟩
      · intro x hx
        rcases List.mem_cons.mp hx with rfl | hx
        · exact hturn.1 hposp
        · exact hrec.1 x hx
      · intro x hx
        rcases List.mem_cons.mp hx with rfl | hx
        · exact hturn.2.1 hgrp hposp
        · exact hrec.2.1 x hx
      · rw [awardCount_cons, hf2, hpg]
        simp only [Bool.false_eq_true, if_neg, if_false]
        omega

/-- One full iteration of loop body (round plus optional trading)
preserves the award/position invariants. -/
lemma WG.round_and_trading_spec (st : WG.DState)
    (hpos : ∀ p ∈ st.players, posOK p)
    (hgr : ghostReached st.players)
    (hcount : awardCount st.players =
      (if st.ctx.first_to_safe_zone.isSome then 1 else 0))
    (hfok : firstOK st.ctx.first_to_safe_zone) :
    (∀ p ∈ (WG.round_and_trading st).players, posOK p) ∧
    ghostReached (WG.round_and_trading st).players ∧
    awardCount (WG.round_and_trading st).players =
      (if (WG.round_and_trading st).ctx.first_to_safe_zone.isSome then 1 else 0) ∧
    firstOK (WG.round_and_trading st).ctx.first_to_safe_zone := by
  have hround := WG.disaster_round_spec st.players st.ctx hpos hgr hcount hfok
  unfold WG.round_and_trading
  dsimp only
  split
  · -- trading happens; it only permutes inventories
    rename_i hnone
    have hsh := WG.trading_phase_shadow (WG.disaster_round st.players st.ctx).1
      (WG.disaster_round st.players st.ctx).2.env
    refine ⟨?_, ?_, ?_, hround.2.2.2⟩
    · exact forall_of_map_shadow hsh posOK
        (fun x y hxy h => by
          unfold posOK at h ⊢
          have h0 : (shadow x).position = (shadow y).position := by rw [hxy]
          have : x.position = y.position := h0
          rw [this]; exact h) hround.1
    · exact forall_of_map_shadow hsh
        (fun p => p.ghost_first_bonus = true → p.reached_safe_zone = true)
        (fun x y hxy h => by
          have h0 : (shadow x).ghost_first_bonus = (shadow y).ghost_first_bonus := by
            rw [hxy]
          have h0r : (shadow x).reached_safe_zone = (shadow y).reached_safe_zone := by
            rw [hxy]
          have h1 : x.ghost_first_bonus = y.ghost_first_bonus := h0
          have h2 : x.reached_safe_zone = y.reached_safe_zone := h0r
          show x.ghost_first_bonus = true → x.reached_safe_zone = true
          rw [h1, h2]; exact h) hround.2.1
    · rw [awardCount_of_map_shadow hsh]
      exact hround.2.2.1
  · exact hround

lemma WG.disaster_loop_spec :
    ∀ (fuel : Nat) (st : WG.DState),
      (∀ p ∈ st.players, posOK p) →
      ghostReached st.players →
      awardCount st.players = (if st.ctx.first_to_safe_zone.isSome then 1 else 0) →
      firstOK st.ctx.first_to_safe_zone →
      ((∀ p ∈ (WG.disaster_loop fuel st).1.players, posOK p) ∧
       ghostReached (WG.disaster_loop fuel st).1.players ∧
       awardCount (WG.disaster_loop fuel st).1.players =
         (if (WG.disaster_loop fuel st).1.ctx.first_to_safe_zone.isSome then 1 else 0) ∧
       firstOK (WG.disaster_loop fuel st).1.ctx.first_to_safe_zone ∧
       ((WG.disaster_loop fuel st).2 = true →
         (WG.disaster_loop fuel st).1.ctx.first_to_safe_zone.isSome = true)) := by
  intro fuel
  induction fuel with
  | zero =>
    intro st hpos hgr hcount hfok
    exact ⟨hpos, hgr, hcount, hfok, fun h => h⟩
  | succ fuel ih =>
    intro st hpos hgr hcount hfok
    unfold WG.disaster_loop
    split
    · rename_i hsome
      dsimp only
      rw [hsome] at hcount
      norm_num at hcount
      exact ⟨hpos, hgr, hcount, hfok, fun _ => hsome⟩
    · have hstep := WG.round_and_trading_spec st hpos hgr hcount hfok
      exact ih _ hstep.1 hstep.2.1 hstep.2.2.1 hstep.2.2.2

lemma WG.round_then_trading_spec (st : WG.DState)
    (hpos : ∀ p ∈ st.players, posOK p)
    (hgr : ghostReached st.players)
    (hcount : awardCount st.players =
      (if st.ctx.first_to_safe_zone.isSome then 1 else 0))
    (hfok : firstOK st.ctx.first_to_safe_zone) :
    (∀ p ∈ (WG.round_then_trading st).players, posOK p) ∧
    ghostReached (WG.round_then_trading st).players ∧
    awardCount (WG.round_then_trading st).players =
      (if (WG.round_then_trading st).ctx.first_to_safe_zone.isSome then 1 else 0) ∧
    firstOK (WG.round_then_trading st).ctx.first_to_safe_zone := by
  have hround := WG.disaster_round_spec st.players st.ctx hpos hgr hcount hfok
  unfold WG.round_then_trading
  dsimp only
  have hsh := WG.trading_phase_shadow (WG.disaster_round st.players st.ctx).1
    (WG.disaster_round st.players st.ctx).2.env
  refine ⟨?_, ?_, ?_, hround.2.2.2⟩
  · exact forall_of_map_shadow hsh posOK
      (fun x y hxy h => by
        unfold posOK at h ⊢
        have h0 : (shadow x).position = (shadow y).position := by rw [hxy]
        have : x.position = y.position := h0
        rw [this]; exact h) hround.1
  · exact forall_of_map_shadow hsh
      (fun p => p.ghost_first_bonus = true → p.reached_safe_zone = true)
      (fun x y hxy h => by
        have h0 : (shadow x).ghost_first_bonus = (shadow y).ghost_first_bonus := by
          rw [hxy]
        have h0r : (shadow x).reached_safe_zone = (shadow y).reached_safe_zone := by
          rw [hxy]
        have h1 : x.ghost_first_bonus = y.ghost_first_bonus := h0
        have h2 : x.reached_safe_zone = y.reached_safe_zone := h0r
        show x.ghost_first_bonus = true → x.reached_safe_zone = true
        rw [h1, h2]; exact h) hround.2.1
  · rw [awardCount_of_map_shadow hsh]
    exact hround.2.2.1

lemma WG.disaster_loop2_spec :
    ∀ (fuel : Nat) (st : WG.DState),
      (∀ p ∈ st.players, posOK p) →
      ghostReached st.players →
      awardCount st.players = (if st.ctx.first_to_safe_zone.isSome then 1 else 0) →
      firstOK st.ctx.first_to_safe_zone →
      ((∀ p ∈ (WG.disaster_loop2 fuel st).1.players, posOK p) ∧
       ghostReached (WG.disaster_loop2 fuel st).1.players ∧
       awardCount (WG.disaster_loop2 fuel st).1.players =
         (if (WG.disaster_loop2 fuel st).1.ctx.first_to_safe_zone.isSome then 1 else 0) ∧
       firstOK (WG.disaster_loop2 fuel st).1.ctx.first_to_safe_zone ∧
       ((WG.disaster_loop2 fuel st).2 = true →
         (WG.disaster_loop2 fuel st).1.ctx.first_to_safe_zone.isSome = true)) := by
  intro fuel
  induction fuel with
  | zero =>
    intro st hpos hgr hcount hfok
    exact ⟨hpos, hgr, hcount, hfok, fun h => h⟩
  | succ fuel ih =>
    intro st hpos hgr hcount hfok
    unfold WG.disaster_loop2
    split
    · rename_i hsome
      dsimp only
      rw [hsome] at hcount
      norm_num at hcount
      exact ⟨hpos, hgr, hcount, hfok, fun _ => hsome⟩
    · have hstep := WG.round_then_trading_spec st hpos hgr hcount hfok
      exact ih _ hstep.1 hstep.2.1 hstep.2.2.1 hstep.2.2.2

lemma WG.disaster_entry_pos (ps : List Player) :
    ∀ p ∈ ps.map WG.disaster_entry_player, posOK p := by
  intro p hp
  rcases List.mem_map.mp hp with ⟨q, -, rfl⟩
  unfold WG.disaster_entry_player posOK
  simp [SAFE_ZONE_INDEX, PATH_LENGTH]

lemma WG.disaster_entry_ghost (ps : List Player) :
    ghostReached ps → ghostReached (ps.map WG.disaster_entry_player) := by
  intro h p hp
  rcases List.mem_map.mp hp with ⟨q, hq, rfl⟩
  exact h q hq

lemma WG.disaster_entry_count (ps : List Player) :
    awardCount (ps.map WG.disaster_entry_player) = awardCount ps := by
  unfold awardCount
  rw [List.countP_map]
  rfl

/-- Invariants of the full interactive disaster phase: started with a
clean first-arrival slot, it maintains the award bookkeeping, and if its
loops complete, exactly one player carries the award. -/
lemma WG.disaster_phase_spec (fuel : Nat) (st : WG.DState)
    (hgr : ghostReached st.players)
    (hcount : awardCount st.players =
      (if st.ctx.first_to_safe_zone.isSome then 1 else 0))
    (hfok : firstOK st.ctx.first_to_safe_zone) :
    awardCount (WG.disaster_phase fuel st).1.players =
      (if (WG.disaster_phase fuel st).1.ctx.first_to_safe_zone.isSome then 1 else 0) ∧
    ghostReached (WG.disaster_phase fuel st).1.players ∧
    firstOK (WG.disaster_phase fuel st).1.ctx.first_to_safe_zone ∧
    ((WG.disaster_phase fuel st).2 = true →
      awardCount (WG.disaster_phase fuel st).1.players = 1) := by
  unfold WG.disaster_phase
  dsimp only
  have h1 := WG.disaster_loop_spec fuel ⟨st.players.map WG.disaster_entry_player, st.ctx⟩
    (WG.disaster_entry_pos st.players) (WG.disaster_entry_ghost st.players hgr)
    (by rw [WG.disaster_entry_count]; exact hcount) hfok
  have h2 := WG.disaster_loop2_spec fuel
    (WG.disaster_loop fuel ⟨st.players.map WG.disaster_entry_player, st.ctx⟩).1
    h1.1 h1.2.1 h1.2.2.1 h1.2.2.2.1
  refine ⟨h2.2.2.1, h2.2.1, h2.2.2.2.1, fun hcomp => ?_⟩
  rw [Bool.and_eq_true] at hcomp
  rw [h2.2.2.1, h2.2.2.2.2 hcomp.2]
  rfl

/-! #### Position-only chains (no award hypotheses), interactive engine -/

lemma WG.disaster_round_pos :
    ∀ (ps : List Player) (c : WG.Ctx),
      (∀ p ∈ ps, posOK p) → ∀ p ∈ (WG.disaster_round ps c).1, posOK p := by
  intro ps
  induction ps with
  | nil => intro c h; exact h
  | cons p rest ih =>
    intro c hpos
    unfold WG.disaster_round
    dsimp only
    have hturn := WG.take_disaster_turn_spec p c
    have hposp : posOK p := hpos p (List.mem_cons_self p rest)
    have hposrest : ∀ x ∈ rest, posOK x := fun x hx => hpos x (List.mem_cons_of_mem p hx)
    split
    · intro x hx
      rcases List.mem_cons.mp hx with rfl | hx
      · exact hturn.1 hposp
      · exact hposrest x hx
    · intro x hx
      rcases List.mem_cons.mp hx with rfl | hx
      · exact hturn.1 hposp
      · exact ih _ hposrest x hx

lemma WG.trading_pos (ps : List Player) (e : Env)
    (h : ∀ p ∈ ps, posOK p) : ∀ p ∈ (WG.trading_phase ps e).1, posOK p :=
  forall_of_map_shadow (WG.trading_phase_shadow ps e) posOK
    (fun x y hxy hy => by
      unfold posOK at hy ⊢
      have h0 : (shadow x).position = (shadow y).position := by rw [hxy]
      have : x.position = y.position := h0
      rw [this]; exact hy) h

lemma WG.round_and_trading_pos (st : WG.DState)
    (h : ∀ p ∈ st.players, posOK p) :
    ∀ p ∈ (WG.round_and_trading st).players, posOK p := by
  unfold WG.round_and_trading
  dsimp only
  split
  · exact WG.trading_pos _ _ (WG.disaster_round_pos st.players st.ctx h)
  · exact WG.disaster_round_pos st.players st.ctx h

lemma WG.round_then_trading_pos (st : WG.DState)
    (h : ∀ p ∈ st.players, posOK p) :
    ∀ p ∈ (WG.round_then_trading st).players, posOK p := by
  unfold WG.round_then_trading
  dsimp only
  exact WG.trading_pos _ _ (WG.disaster_round_pos st.players st.ctx h)

lemma WG.disaster_loop_pos :
    ∀ (fuel : Nat) (st : WG.DState), (∀ p ∈ st.players, posOK p) →
      ∀ p ∈ (WG.disaster_loop fuel st).1.players, posOK p := by
  intro fuel
  induction fuel with
  | zero => intro st h; exact h
  | succ fuel ih =>
    intro st h
    unfold WG.disaster_loop
    split
    · exact h
    · exact ih _ (WG.round_and_trading_pos st h)

lemma WG.disaster_loop2_pos :
    ∀ (fuel : Nat) (st : WG.DState), (∀ p ∈ st.players, posOK p) →
      ∀ p ∈ (WG.disaster_loop2 fuel st).1.players, posOK p := by
  intro fuel
  induction fuel with
  | zero => intro st h; exact h
  | succ fuel ih =>
    intro st h
    unfold WG.disaster_loop2
    split
    · exact h
    · exact ih _ (WG.round_then_trading_pos st h)

lemma WG.disaster_phase_pos (fuel : Nat) (st : WG.DState) :
    ∀ p ∈ (WG.disaster_phase fuel st).1.players, posOK p := by
  unfold WG.disaster_phase
  dsimp only
  exact WG.disaster_loop2_pos fuel _
    (WG.disaster_loop_pos fuel _ (WG.disaster_entry_pos st.players))

/-! #### Completion lemmas for the three disaster loops -/

lemma WG.disaster_loop_completed :
    ∀ (fuel : Nat) (st : WG.DState), (WG.disaster_loop fuel st).2 = true →
      (WG.disaster_loop fuel st).1.ctx.first_to_safe_zone.isSome = true := by
  intro fuel
  induction fuel with
  | zero => intro st h; exact h
  | succ fuel ih =>
    intro st
    unfold WG.disaster_loop
    split
    · intro _; assumption
    · exact ih _

lemma WG.disaster_loop2_completed :
    ∀ (fuel : Nat) (st : WG.DState), (WG.disaster_loop2 fuel st).2 = true →
      (WG.disaster_loop2 fuel st).1.ctx.first_to_safe_zone.isSome = true := by
  intro fuel
  induction fuel with
  | zero => intro st h; exact h
  | succ fuel ih =>
    intro st
    unfold WG.disaster_loop2
    split
    · intro _; assumption
    · exact ih _

lemma WG.disaster_phase_completed (fuel : Nat) (st : WG.DState) :
    (WG.disaster_phase fuel st).2 = true →
    (WG.disaster_phase fuel st).1.ctx.first_to_safe_zone.isSome = true := by
  unfold WG.disaster_phase
  dsimp only
  intro h
  rw [Bool.and_eq_true] at h
  exact WG.disaster_loop2_completed fuel _ h.2

lemma MSE.mse_disaster_loop_completed :
    ∀ (fuel : Nat) (s : List Player × SimOpt.Ctx),
      (MSE.disaster_loop fuel s).2 = true →
      (MSE.disaster_loop fuel s).1.1.all (fun p => p.reached_safe_zone) = true := by
  intro fuel
  induction fuel with
  | zero => intro s h; exact h
  | succ fuel ih =>
    intro s
    unfold MSE.disaster_loop
    split
    · intro _; assumption
    · exact ih _

/-! #### Stage lemmas, options simulator -/

lemma SimOpt.sim_move_roll_spec (p : Player) (c : SimOpt.Ctx) :
    0 ≤ (SimOpt.move_roll p c).1 ∧
    (SimOpt.move_roll p c).2.1.position = p.position ∧
    (SimOpt.move_roll p c).2.1.reached_safe_zone = p.reached_safe_zone ∧
    (SimOpt.move_roll p c).2.1.ghost_first_bonus = p.ghost_first_bonus ∧
    (SimOpt.move_roll p c).2.2.first_to_safe = c.first_to_safe := by
  unfold SimOpt.move_roll
  dsimp only
  split
  · exact ⟨by norm_num, rfl, rfl, rfl, rfl⟩
  · exact ⟨by positivity, rfl, rfl, rfl, rfl⟩

lemma SimOpt.sim_token_step_spec (m : Int) (p : Player) (c : SimOpt.Ctx) :
    (0 ≤ m → 0 ≤ (SimOpt.token_step m p c).1) ∧
    (SimOpt.token_step m p c).2.1.position = p.position ∧
    (SimOpt.token_step m p c).2.1.reached_safe_zone = p.reached_safe_zone ∧
    (SimOpt.token_step m p c).2.1.ghost_first_bonus = p.ghost_first_bonus ∧
    (SimOpt.token_step m p c).2.2.first_to_safe = c.first_to_safe := by
  unfold SimOpt.token_step
  dsimp only
  split_ifs <;> exact ⟨by intro h; omega, rfl, rfl, rfl, rfl⟩

lemma SimOpt.sim_advance_posOK (m : Int) (p : Player) (hm : 0 ≤ m) (hp : 0 ≤ p.position) :
    posOK (SimOpt.advance m p) := by
  unfold SimOpt.advance posOK
  dsimp only
  simp only [SAFE_ZONE_INDEX, PATH_LENGTH]
  omega

lemma SimOpt.sim_advance_frame (m : Int) (p : Player) :
    (SimOpt.advance m p).reached_safe_zone = p.reached_safe_zone ∧
    (SimOpt.advance m p).ghost_first_bonus = p.ghost_first_bonus := ⟨rfl, rfl⟩

lemma SimOpt.sim_shortcut_step_spec (p : Player) (c : SimOpt.Ctx) :
    (posOK p → posOK (SimOpt.shortcut_step p c).1) ∧
    (SimOpt.shortcut_step p c).1.reached_safe_zone = p.reached_safe_zone ∧
    (SimOpt.shortcut_step p c).1.ghost_first_bonus = p.ghost_first_bonus ∧
    (SimOpt.shortcut_step p c).2.first_to_safe = c.first_to_safe := by
  unfold SimOpt.shortcut_step posOK
  dsimp only
  split_ifs <;>
    refine ⟨?_, rfl, rfl, rfl⟩ <;>
    simp only [SAFE_ZONE_INDEX, PATH_LENGTH] <;> omega

lemma SimOpt.sim_apply_action_penalty_spec (t : String) (p : Player) :
    (posOK p → posOK (SimOpt.apply_action_penalty t p)) ∧
    (SimOpt.apply_action_penalty t p).reached_safe_zone = p.reached_safe_zone ∧
    (SimOpt.apply_action_penalty t p).ghost_first_bonus = p.ghost_first_bonus := by
  unfold SimOpt.apply_action_penalty posOK
  split_ifs <;>
    refine ⟨?_, rfl, rfl⟩ <;>
    simp only [SAFE_ZONE_INDEX, PATH_LENGTH] <;> omega

lemma SimOpt.sim_resolve_action_card_spec (p : Player) (c : SimOpt.Ctx) :
    (posOK p → posOK (SimOpt.resolve_action_card p c).1) ∧
    (SimOpt.resolve_action_card p c).1.reached_safe_zone = p.reached_safe_zone ∧
    (SimOpt.resolve_action_card p c).1.ghost_first_bonus = p.ghost_first_bonus ∧
    (SimOpt.resolve_action_card p c).2.first_to_safe = c.first_to_safe := by
  have hs := SimOpt.sim_apply_action_penalty_spec
    (c.env.choiceList ACTION_CARDS WG.NO_CARD).1.title p
  unfold SimOpt.resolve_action_card
  dsimp only
  split_ifs <;>
    first
      | exact ⟨fun h => h, rfl, rfl, rfl⟩
      | exact ⟨fun h => hs.1 h, hs.2.1, hs.2.2, rfl⟩

lemma SimOpt.sim_red_step_spec (p : Player) (c : SimOpt.Ctx) :
    (posOK p → posOK (SimOpt.red_step p c).1) ∧
    (SimOpt.red_step p c).1.reached_safe_zone = p.reached_safe_zone ∧
    (SimOpt.red_step p c).1.ghost_first_bonus = p.ghost_first_bonus ∧
    (SimOpt.red_step p c).2.first_to_safe = c.first_to_safe := by
  unfold SimOpt.red_step
  split
  · exact SimOpt.sim_resolve_action_card_spec p c
  · exact ⟨fun h => h, rfl, rfl, rfl⟩

lemma SimOpt.sim_arrival_step_spec (p : Player) (c : SimOpt.Ctx) :
    (SimOpt.arrival_step p c).1.position = p.position ∧
    (p.reached_safe_zone = true → (SimOpt.arrival_step p c).1.reached_safe_zone = true) ∧
    (c.first_to_safe = true →
      (SimOpt.arrival_step p c).2.first_to_safe = true ∧
      (SimOpt.arrival_step p c).1.ghost_first_bonus = p.ghost_first_bonus) ∧
    (c.first_to_safe = false →
      ((SimOpt.arrival_step p c).2.first_to_safe = false ∧
       (SimOpt.arrival_step p c).1.ghost_first_bonus = p.ghost_first_bonus) ∨
      ((SimOpt.arrival_step p c).2.first_to_safe = true ∧
       (SimOpt.arrival_step p c).1.ghost_first_bonus = true ∧
       (SimOpt.arrival_step p c).1.reached_safe_zone = true)) := by
  unfold SimOpt.arrival_step
  dsimp only
  split_ifs with hpos hfirst
  · refine ⟨rfl, fun _ => rfl, fun htrue => ?_, fun _ => Or.inr ⟨rfl, rfl, rfl⟩⟩
    rw [htrue] at hfirst
    simp at hfirst
  · refine ⟨rfl, fun _ => rfl, fun h => ⟨h, rfl⟩, fun hfalse => ?_⟩
    rw [hfalse] at hfirst
    simp at hfirst
  · exact ⟨rfl, fun h => h, fun h => ⟨h, rfl⟩, fun hn => Or.inl ⟨hn, rfl⟩⟩

lemma SimOpt.sim_turn_tail_spec (m : Int) (p : Player) (c : SimOpt.Ctx) (hm : 0 ≤ m) :
    (posOK p → posOK (SimOpt.turn_tail m p c).1) ∧
    ((p.ghost_first_bonus = true → p.reached_safe_zone = true) →
      posOK p →
      (SimOpt.turn_tail m p c).1.ghost_first_bonus = true →
      (SimOpt.turn_tail m p c).1.reached_safe_zone = true) ∧
    (c.first_to_safe = true →
      (SimOpt.turn_tail m p c).2.first_to_safe = true ∧
      (SimOpt.turn_tail m p c).1.ghost_first_bonus = p.ghost_first_bonus) ∧
    (c.first_to_safe = false →
      ((SimOpt.turn_tail m p c).2.first_to_safe = false ∧
       (SimOpt.turn_tail m p c).1.ghost_first_bonus = p.ghost_first_bonus) ∨
      ((SimOpt.turn_tail m p c).2.first_to_safe = true ∧
       (SimOpt.turn_tail m p c).1.ghost_first_bonus = true ∧
       (SimOpt.turn_tail m p c).1.reached_safe_zone = true)) := by
  unfold SimOpt.turn_tail
  dsimp only
  have ht := SimOpt.sim_token_step_spec m p c
  generalize hT : SimOpt.token_step m p c = T at *
  have hadvf := SimOpt.sim_advance_frame T.1 T.2.1
  generalize hP : SimOpt.advance T.1 T.2.1 = P at *
  have hs := SimOpt.sim_shortcut_step_spec P T.2.2
  generalize hS : SimOpt.shortcut_step P T.2.2 = S at *
  have hr := SimOpt.sim_red_step_spec S.1 S.2
  generalize hR : SimOpt.red_step S.1 S.2 = R at *
  have ha := SimOpt.sim_arrival_step_spec R.1 R.2
  generalize hA : SimOpt.arrival_step R.1 R.2 = A at *
  have hghost : R.1.ghost_first_bonus = p.ghost_first_bonus := by
    rw [hr.2.2.1, hs.2.2.1, hadvf.2, ht.2.2.2.1]
  have hfirst : R.2.first_to_safe = c.first_to_safe := by
    rw [hr.2.2.2, hs.2.2.2, ht.2.2.2.2]
  have hreached : R.1.reached_safe_zone = p.reached_safe_zone := by
    rw [hr.2.1, hs.2.1, hadvf.1, ht.2.2.1]
  refine ⟨fun hpOK => ?_, fun hgr hpOK hga => ?_, fun htrue => ?_, fun hfalse => ?_⟩
  · have hPOK : posOK P := by
      rw [← hP]
      exact SimOpt.sim_advance_posOK T.1 T.2.1 (ht.1 hm) (by rw [ht.2.1]; exact hpOK.1)
    have hROK : posOK R.1 := hr.1 (hs.1 hPOK)
    unfold posOK at hROK ⊢
    rw [ha.1]
    exact hROK
  · cases hcf : c.first_to_safe
    · rcases ha.2.2.2 (hfirst ▸ hcf) with ⟨-, hg⟩ | ⟨-, -, hrch⟩
      · rw [hg, hghost] at hga
        exact ha.2.1 (by rw [hreached]; exact hgr hga)
      · exact hrch
    · have hg := (ha.2.2.1 (hfirst ▸ hcf)).2
      rw [hg, hghost] at hga
      exact ha.2.1 (by rw [hreached]; exact hgr hga)
  · have h1 := ha.2.2.1 (hfirst ▸ htrue)
    exact ⟨h1.1, by rw [h1.2, hghost]⟩
  · rcases ha.2.2.2 (hfirst ▸ hfalse) with ⟨h1, h2⟩ | h
    · exact Or.inl ⟨h1, by rw [h2, hghost]⟩
    · exact Or.inr h

lemma SimOpt.disaster_turn_spec (p : Player) (c : SimOpt.Ctx) :
    (posOK p → posOK (SimOpt.disaster_turn p c).1) ∧
    ((p.ghost_first_bonus = true → p.reached_safe_zone = true) →
      posOK p →
      (SimOpt.disaster_turn p c).1.ghost_first_bonus = true →
      (SimOpt.disaster_turn p c).1.reached_safe_zone = true) ∧
    (c.first_to_safe = true →
      (SimOpt.disaster_turn p c).2.first_to_safe = true ∧
      (SimOpt.disaster_turn p c).1.ghost_first_bonus = p.ghost_first_bonus) ∧
    (c.first_to_safe = false →
      ((SimOpt.disaster_turn p c).2.first_to_safe = false ∧
       (SimOpt.disaster_turn p c).1.ghost_first_bonus = p.ghost_first_bonus) ∨
      ((SimOpt.disaster_turn p c).2.first_to_safe = true ∧
       (SimOpt.disaster_turn p c).1.ghost_first_bonus = true ∧
       (SimOpt.disaster_turn p c).1.reached_safe_zone = true)) := by
  unfold SimOpt.disaster_turn
  dsimp only
  split_ifs with hreach hskip
  · exact ⟨fun h => h, fun _ _ _ => hreach, fun h => ⟨h, rfl⟩,
      fun hn => Or.inl ⟨hn, rfl⟩⟩
  · exact ⟨fun h => h, fun hgr _ hga => hgr hga, fun h => ⟨h, rfl⟩,
      fun hn => Or.inl ⟨hn, rfl⟩⟩
  · have hmv := SimOpt.sim_move_roll_spec p c
    generalize hM : SimOpt.move_roll p c = M at *
    have htail := SimOpt.sim_turn_tail_spec M.1 M.2.1 M.2.2 hmv.1
    refine ⟨fun hpOK => ?_, fun hgr hpOK hga => ?_, fun htrue => ?_, fun hfalse => ?_⟩
    · exact htail.1 (by unfold posOK at hpOK ⊢; rw [hmv.2.1]; exact hpOK)
    · exact htail.2.1
        (by rw [hmv.2.2.2.1, hmv.2.2.1]; exact hgr)
        (by unfold posOK; rw [hmv.2.1]; exact hpOK) hga
    · have := htail.2.2.1 (by rw [hmv.2.2.2.2]; exact htrue)
      exact ⟨this.1, by rw [this.2, hmv.2.2.2.1]⟩
    · rcases htail.2.2.2 (by rw [hmv.2.2.2.2]; exact hfalse) with ⟨h1, h2⟩ | h
      · exact Or.inl ⟨h1, by rw [h2, hmv.2.2.2.1]⟩
      · exact Or.inr h

/-! #### Round and loop invariants, options simulator -/

lemma SimOpt.disaster_round_first_true :
    ∀ (ps : List Player) (c : SimOpt.Ctx), c.first_to_safe = true →
      (∀ p ∈ ps, posOK p) → ghostReached ps →
      ((∀ p ∈ (SimOpt.disaster_round ps c).1, posOK p) ∧
       ghostReached (SimOpt.disaster_round ps c).1 ∧
       awardCount (SimOpt.disaster_round ps c).1 = awardCount ps ∧
       (SimOpt.disaster_round ps c).2.first_to_safe = true) := by
  intro ps
  induction ps with
  | nil => intro c htrue hpos hgr; exact ⟨hpos, hgr, rfl, htrue⟩
  | cons p rest ih =>
    intro c htrue hpos hgr
    unfold SimOpt.disaster_round
    dsimp only
    have hturn := SimOpt.disaster_turn_spec p c
    have hposp : posOK p := hpos p (List.mem_cons_self p rest)
    have hposrest : ∀ x ∈ rest, posOK x := fun x hx => hpos x (List.mem_cons_of_mem p hx)
    have hgrp := hgr p (List.mem_cons_self p rest)
    have hgrrest : ghostReached rest := fun x hx => hgr x (List.mem_cons_of_mem p hx)
    have hfr := hturn.2.2.1 htrue
    have hrec := ih (SimOpt.disaster_turn p c).2 hfr.1 hposrest hgrrest
    refine ⟨?_, ?_, ?_, hrec.2.2.2⟩
    · intro x hx
      rcases List.mem_cons.mp hx with rfl | hx
      · exact hturn.1 hposp
      · exact hrec.1 x hx
    · intro x hx
      rcases List.mem_cons.mp hx with rfl | hx
      · exact hturn.2.1 hgrp hposp
      · exact hrec.2.1 x hx
    · rw [awardCount_cons, awardCount_cons, hfr.2, hrec.2.2.1]

lemma SimOpt.sim_disaster_round_spec :
    ∀ (ps : List Player) (c : SimOpt.Ctx),
      (∀ p ∈ ps, posOK p) →
      ghostReached ps →
      awardCount ps = (if c.first_to_safe then 1 else 0) →
      ((∀ p ∈ (SimOpt.disaster_round ps c).1, posOK p) ∧
       ghostReached (SimOpt.disaster_round ps c).1 ∧
       awardCount (SimOpt.disaster_round ps c).1 =
         (if (SimOpt.disaster_round ps c).2.first_to_safe then 1 else 0)) := by
  intro ps
  induction ps with
  | nil => intro c hpos hgr hcount; exact ⟨hpos, hgr, hcount⟩
  | cons p rest ih =>
    intro c hpos hgr hcount
    have hturn := SimOpt.disaster_turn_spec p c
    have hposp : posOK p := hpos p (List.mem_cons_self p rest)
    have hposrest : ∀ x ∈ rest, posOK x := fun x hx => hpos x (List.mem_cons_of_mem p hx)
    have hgrp := hgr p (List.mem_cons_self p rest)
    have hgrrest : ghostReached rest := fun x hx => hgr x (List.mem_cons_of_mem p hx)
    rw [awardCount_cons] at hcount
    cases hcf : c.first_to_safe
    · -- slot still open when the round reaches this player
      rw [hcf] at hcount
      norm_num at hcount
      unfold SimOpt.disaster_round
      dsimp only
      rcases hturn.2.2.2 hcf with ⟨hf1, hf2⟩ | ⟨hf1, hf2, -⟩
      · -- the player did not arrive first: slot still open for the rest
        have hrec := ih (SimOpt.disaster_turn p c).2 hposrest hgrrest
          (by rw [hf1]; norm_num; exact hcount.1)
        refine ⟨?_, ?_, ?_⟩
        · intro x hx
          rcases List.mem_cons.mp hx with rfl | hx
          · exact hturn.1 hposp
          · exact hrec.1 x hx
        · intro x hx
          rcases List.mem_cons.mp hx with rfl | hx
          · exact hturn.2.1 hgrp hposp
          · exact hrec.2.1 x hx
        · rw [awardCount_cons, hf2, hcount.2]
          norm_num
          exact hrec.2.2
      · -- the player claimed the slot: the rest runs with it closed
        have hrec := SimOpt.disaster_round_first_true rest
          (SimOpt.disaster_turn p c).2 hf1 hposrest hgrrest
        refine ⟨?_, ?_, ?_⟩
        · intro x hx
          rcases List.mem_cons.mp hx with rfl | hx
          · exact hturn.1 hposp
          · exact hrec.1 x hx
        · intro x hx
          rcases List.mem_cons.mp hx with rfl | hx
          · exact hturn.2.1 hgrp hposp
          · exact hrec.2.1 x hx
        · rw [awardCount_cons, hf2, hrec.2.2.1, hcount.1, hrec.2.2.2]
          norm_num
    · -- slot already closed: nothing changes in the count
      rw [hcf] at hcount
      norm_num at hcount
      unfold SimOpt.disaster_round
      dsimp only
      have hfr := hturn.2.2.1 hcf
      have hrec := SimOpt.disaster_round_first_true rest
        (SimOpt.disaster_turn p c).2 hfr.1 hposrest hgrrest
      refine ⟨?_, ?_, ?_⟩
      · intro x hx
        rcases List.mem_cons.mp hx with rfl | hx
        · exact hturn.1 hposp
        · exact hrec.1 x hx
      · intro x hx
        rcases List.mem_cons.mp hx with rfl | hx
        · exact hturn.2.1 hgrp hposp
        · exact hrec.2.1 x hx
      · rw [awardCount_cons, hfr.2, hrec.2.2.1, hrec.2.2.2]
        norm_num
        exact hcount

/-! #### Loop and phase invariants, options simulator -/

lemma SimOpt.disaster_loop_inv :
    ∀ (fuel : Nat) (st : SimOpt.DState),
      (∀ p ∈ st.players, posOK p) →
      ghostReached st.players →
      awardCount st.players = (if st.first_to_safe then 1 else 0) →
      ((∀ p ∈ (SimOpt.disaster_loop fuel st).players, posOK p) ∧
       ghostReached (SimOpt.disaster_loop fuel st).players ∧
       awardCount (SimOpt.disaster_loop fuel st).players =
         (if (SimOpt.disaster_loop fuel st).first_to_safe then 1 else 0)) := by
  intro fuel
  induction fuel with
  | zero => intro st hpos hgr hcount; exact ⟨hpos, hgr, hcount⟩
  | succ fuel ih =>
    intro st hpos hgr hcount
    unfold SimOpt.disaster_loop
    split
    · have hstep := SimOpt.sim_disaster_round_spec st.players ⟨st.first_to_safe, st.env⟩
        hpos hgr hcount
      exact ih _ hstep.1 hstep.2.1 hstep.2.2
    · exact ⟨hpos, hgr, hcount⟩

lemma SimOpt.sim_disaster_entry_pos (ps : List Player) :
    ∀ p ∈ ps.map SimOpt.disaster_entry, posOK p := by
  intro p hp
  rcases List.mem_map.mp hp with ⟨q, -, rfl⟩
  unfold SimOpt.disaster_entry posOK
  simp [SAFE_ZONE_INDEX, PATH_LENGTH]

lemma SimOpt.sim_disaster_entry_ghost (ps : List Player) :
    ghostReached (ps.map SimOpt.disaster_entry) := by
  intro p hp hg
  rcases List.mem_map.mp hp with ⟨q, -, rfl⟩
  simp [SimOpt.disaster_entry] at hg

lemma SimOpt.sim_disaster_entry_count (ps : List Player) :
    awardCount (ps.map SimOpt.disaster_entry) = 0 := by
  induction ps with
  | nil => rfl
  | cons p rest ih =>
    rw [List.map_cons, awardCount_cons, ih]
    simp [SimOpt.disaster_entry]

/-- Award bookkeeping of the options simulator's whole disaster phase. -/
lemma SimOpt.disaster_phase_award (ps : List Player) (e : Env) :
    awardCount (SimOpt.disaster_phase ps e).players =
      (if (SimOpt.disaster_phase ps e).first_to_safe then 1 else 0) :=
  (SimOpt.disaster_loop_inv 200 ⟨ps.map SimOpt.disaster_entry, false, 0, e⟩
    (SimOpt.sim_disaster_entry_pos ps) (SimOpt.sim_disaster_entry_ghost ps)
    (by rw [SimOpt.sim_disaster_entry_count]; rfl)).2.2

lemma SimOpt.sim_disaster_phase_pos (ps : List Player) (e : Env) :
    ∀ p ∈ (SimOpt.disaster_phase ps e).players, posOK p :=
  (SimOpt.disaster_loop_inv 200 ⟨ps.map SimOpt.disaster_entry, false, 0, e⟩
    (SimOpt.sim_disaster_entry_pos ps) (SimOpt.sim_disaster_entry_ghost ps)
    (by rw [SimOpt.sim_disaster_entry_count]; rfl)).1

/-! ### Claim C4: position bounds -/

/-- C4: positions never leave `[0, SAFE_ZONE_INDEX]`: a single interactive
disaster turn preserves the bounds for the acting player (every movement is
clamped above at the safe zone and the Bad Directions backtrack below at
0), and every player of the final state of either engine's full disaster
phase — which starts from the position-0 reset — satisfies them. -/
theorem claim4_position_bounds :
    (∀ (p : Player) (c : WG.Ctx), posOK p → posOK (WG.take_disaster_turn p c).1) ∧
    (∀ (fuel : Nat) (st : WG.DState),
      ∀ p ∈ (WG.disaster_phase fuel st).1.players,
        0 ≤ p.position ∧ p.position ≤ SAFE_ZONE_INDEX) ∧
    (∀ (ps : List Player) (e : Env),
      ∀ p ∈ (SimOpt.disaster_phase ps e).players,
        0 ≤ p.position ∧ p.position ≤ SAFE_ZONE_INDEX) :=
  ⟨fun p c h => (WG.take_disaster_turn_spec p c).1 h,
   fun fuel st => WG.disaster_phase_pos fuel st,
   fun ps e => SimOpt.sim_disaster_phase_pos ps e⟩

/-- C4 (witness): the per-turn bound applied to Alice at position 0 in a
concrete context. -/
theorem claim4_witness :
    posOK (WG.take_disaster_turn alice ⟨ACTION_CARDS, none, envC⟩).1 :=
  claim4_position_bounds.1 alice ⟨ACTION_CARDS, none, envC⟩ (by constructor <;> decide)

/-! ### Claim C3: the first-arrival award -/

set_option maxRecDepth 1000000 in
/-- C3 (counterexample): the claim says every complete game awards the +5
first-arrival bonus to exactly one player, but a complete run of the
options simulator (run D, preceded by its 7-round preparation phase) hits
the 200-round cap with nobody at the safe zone: the game finishes with
zero awarded players. -/
theorem claim3_counterexample :
    awardCount (SimOpt.play_full_game [alice] [] envD).players = 0 ∧
    (SimOpt.play_full_game [alice] [] envD).turns = 200 := by
  exact ⟨rfl, rfl⟩

/-- C3 (amended): at most one player per game receives the +5 first-arrival
award, namely the one recorded in the shared first-arrival slot at the
moment it is claimed (who has then reached the safe zone); the slot is
claimed at most once, so every later arrival receives +0 from this source.
In the interactive engine, whose disaster loops end only once the slot is
claimed, a completed phase has exactly one awarded player; an
options-simulator game that hits its 200-round cap with no arrival
completes with zero awarded players (see the counterexample). -/
theorem claim3_amended :
    (∀ (fuel : Nat) (st : WG.DState),
      ghostReached st.players →
      awardCount st.players = (if st.ctx.first_to_safe_zone.isSome then 1 else 0) →
      firstOK st.ctx.first_to_safe_zone →
      (awardCount (WG.disaster_phase fuel st).1.players =
        (if (WG.disaster_phase fuel st).1.ctx.first_to_safe_zone.isSome then 1 else 0) ∧
       firstOK (WG.disaster_phase fuel st).1.ctx.first_to_safe_zone ∧
       ((WG.disaster_phase fuel st).2 = true →
         awardCount (WG.disaster_phase fuel st).1.players = 1))) ∧
    (∀ (ps : List Player) (e : Env),
      awardCount (SimOpt.disaster_phase ps e).players =
        (if (SimOpt.disaster_phase ps e).first_to_safe then 1 else 0)) := by
  constructor
  · intro fuel st hgr hcount hfok
    have h := WG.disaster_phase_spec fuel st hgr hcount hfok
    exact ⟨h.1, h.2.2.1, h.2.2.2⟩
  · exact SimOpt.disaster_phase_award

/-- C3 (witness): in the concrete interactive run C, which starts with a
clean slot and completes, exactly one player carries the award. -/
theorem claim3_witness :
    awardCount (WG.disaster_phase 5 stC).1.players = 1 :=
  (claim3_amended.1 5 stC (by unfold ghostReached; decide) (by decide)
    (fun q h => nomatch h)).2.2 (by decide)

/-! ### Claim C1: exit conditions of the disaster loops -/

/-- C1 (counterexample): the interactive disaster phase of run C terminates
normally (both its loops exit through their conditions), yet Bob has not
reached the safe zone: the loop exits as soon as the first player arrives,
not once all players have. -/
theorem claim1_counterexample :
    (WG.disaster_phase 5 stC).2 = true ∧
    ((WG.disaster_phase 5 stC).1.players.all (fun p => p.reached_safe_zone)) = false := by
  exact ⟨rfl, rfl⟩

/-- C1 (amended): the three engines' disaster loops have different exit
conditions. The interactive engine's loops exit as soon as the shared
first-arrival slot has been claimed, so players behind the first arriver
may still have `reached_safe_zone = false` at termination (see the
counterexample); the options simulator exits when all players are safe or
when its 200-round cap is hit; only the multi-strategy simulator's loop
exits exactly when every player has reached the safe zone. -/
theorem claim1_amended :
    (∀ (fuel : Nat) (st : WG.DState), (WG.disaster_phase fuel st).2 = true →
      (WG.disaster_phase fuel st).1.ctx.first_to_safe_zone.isSome = true) ∧
    (∀ (fuel : Nat) (ps : List Player) (e : Env),
      (MSE.disaster_phase fuel ps e).2 = true →
      (MSE.disaster_phase fuel ps e).1.1.all (fun p => p.reached_safe_zone) = true) ∧
    (∀ (ps : List Player) (e : Env),
      (SimOpt.disaster_phase ps e).players.all (fun p => p.reached_safe_zone) = true ∨
      (SimOpt.disaster_phase ps e).turns = 200) :=
  ⟨WG.disaster_phase_completed,
   fun fuel _ _ => MSE.mse_disaster_loop_completed fuel _,
   fun ps e => (SimOpt.disaster_phase_exit ps e).2⟩

/-- C1 (witness): the multi-strategy loop of run E completes, hence every
player has reached the safe zone at its exit. -/
theorem claim1_witness :
    (MSE.disaster_phase 6 [alice] envE).1.1.all (fun p => p.reached_safe_zone) = true :=
  claim1_amended.2.1 6 [alice] envE (by decide)

end Wildfire
